import Mathlib

/-!
Verification of the pharmacy sales reporting backend (server_uni).

Shallow embedding of the request handlers of
`src/controllers/detailedSalesController.js` (listing and statistics
endpoints), the incentive-item handlers of the incentive controller, the
bulk-insert handlers, and the DetailedSales schema.  JavaScript numbers are
modelled as rationals, JavaScript strings as Lean strings (the data in this
repository is ASCII), absent/undefined values as `Option`, and the document
database as a Lean list of rows.  Each definition mirrors one function or
code block of the source; comments cite the file and the symbol.
-/

namespace ServerUni

/-! ## Calendar dates

`InvoiceDate` is a date; the aggregations only ever use its year, month and
day components (Mongo `$year`/`$month`/`$dayOfMonth`), and range filters
compare dates chronologically, so a date is embedded as a year/month/day
triple ordered lexicographically. -/

structure YMD where
  year : Nat
  month : Nat
  day : Nat
deriving DecidableEq, Repr

/-- Chronological comparison of dates (lexicographic on year, month, day). -/
def dateLE (a b : YMD) : Bool :=
  (a.year < b.year) ||
  (a.year == b.year && a.month < b.month) ||
  (a.year == b.year && a.month == b.month && a.day ≤ b.day)

/-- Gregorian leap year, as implemented by the JavaScript Date object. -/
def isLeapYear (y : Nat) : Bool :=
  (y % 4 == 0 && y % 100 != 0) || (y % 400 == 0)

/-- Number of days of month `m` of year `y`; `new Date(y, m, 0).getDate()`. -/
def daysInMonth (y m : Nat) : Nat :=
  if m == 2 then (if isLeapYear y then 29 else 28)
  else if m == 4 || m == 6 || m == 9 || m == 11 then 30
  else 31

/-- First day of month `m`: `new Date(year, month - 1, 1)`. -/
def monthStart (y m : Nat) : YMD := ⟨y, m, 1⟩

/-- Last day of month `m`: `new Date(year, month, 0, 23, 59, 59, 999)`. -/
def monthEnd (y m : Nat) : YMD := ⟨y, m, daysInMonth y m⟩

/-- A date `d` lies in month `(y, m)` iff it is between the `$gte`/`$lte`
bounds the handlers build from the `year`/`month` query parameters. -/
def inMonthRange (y m : Nat) (d : YMD) : Bool :=
  dateLE (monthStart y m) d && dateLE d (monthEnd y m)

/-! ## Strings

`toLowerCase` lowercases ASCII letters exactly as JavaScript
`toLowerCase` does on the ASCII data of this repository.  Case-insensitive
substring containment models a Mongo regex built from a metacharacter-escaped
literal pattern with the `'i'` flag: escaping makes the pattern literal, so
the regex matches a string iff the pattern occurs in it as a substring,
ignoring case. -/

/-- ASCII lowercasing, character by character: JavaScript `toLowerCase` on
the ASCII data of this repository. -/
def toLowerCase (s : String) : String := ⟨s.data.map Char.toLower⟩

/-- `startsWithChars pat hay` : `pat` is a prefix of `hay` (on char lists). -/
def startsWithChars : List Char → List Char → Bool
  | [], _ => true
  | _ :: _, [] => false
  | p :: ps, h :: hs => p == h && startsWithChars ps hs

/-- `containsChars pat hay` : `pat` occurs inside `hay` as a contiguous run. -/
def containsChars (pat : List Char) : List Char → Bool
  | [] => startsWithChars pat []
  | h :: hs => startsWithChars pat (h :: hs) || containsChars pat hs

/-- Case-insensitive substring test:
`new RegExp(escape(pat), 'i').test(hay)` for a literal `pat`. -/
def containsCI (hay pat : String) : Bool :=
  containsChars (toLowerCase pat).data (toLowerCase hay).data

/-! ## Users, access control and responses -/

/-- The authenticated principal attached by the `protect` middleware:
`req.user` with its `role` string (`src/models/User.js`). -/
structure UserT where
  id : String
  role : String
deriving DecidableEq, Repr

/-- The admin gate repeated at the top of every handler of
`src/controllers/detailedSalesController.js` (for example lines 26-32):

  `if (!user || !user.role || user.role.toLowerCase() !== 'admin') → 403`

`adminCheck u = true` iff the request passes the gate: the user exists, the
role string is non-empty (JavaScript truthiness) and lowercases to
`"admin"`. -/
def adminCheck : Option UserT → Bool
  | none => false
  | some u => !(u.role == "") && (toLowerCase u.role == "admin")

/-- A per-item bulk-write failure: `{ index: err.index, error: err.errmsg }`
as the bulk handlers report it. -/
structure WriteError where
  index : Nat
  errmsg : String
deriving DecidableEq, Repr

/-- Outcome of a handler: the 403 Forbidden branch, a 400 Bad Request, the
400 `Some items failed to create` branch listing per-item write errors, a
500 catch-all, or a 200/201 payload. -/
inductive Resp (α : Type) where
  | forbidden
  | badRequest (message : String)
  | failedItems (errors : List WriteError)
  | serverError (message : String)
  | ok (payload : α)
deriving DecidableEq, Repr

/-! ## The DetailedSales row

One line-item row, with the fields the verified handlers read
(`src/unnamed/part_013`, `detailedSalesSchema`).  Numeric fields are
rationals; `InvoiceDate` is a date triple. -/

structure SaleRow where
  BranchCode : Int
  InvoiceNumber : String
  InvoiceDate : YMD
  InvoiceType : String
  SalesName : String
  MaterialNumber : Int
  CustomerName : String
  Quantity : ℚ
  ItemUnitPrice : ℚ
  TotalDiscount : ℚ
  ItemsNetPrice : ℚ
  TotalVAT : ℚ
  NetTotal : ℚ
  DeliveryFees : ℚ
deriving DecidableEq, Repr

/-- A default row used to build concrete test data compactly. -/
def baseRow : SaleRow :=
  { BranchCode := 1, InvoiceNumber := "1", InvoiceDate := ⟨2024, 5, 10⟩
    InvoiceType := "Normal", SalesName := "A", MaterialNumber := 1
    CustomerName := "N/A", Quantity := 1, ItemUnitPrice := 1
    TotalDiscount := 0, ItemsNetPrice := 1, TotalVAT := 0, NetTotal := 1
    DeliveryFees := 0 }

/-! ## Grouping and summing

A Mongo `$group` stage partitions the row set by a key and sums the listed
fields; `$sum` treats missing fields as 0 (all summed fields are required by
the schema here, so the sums are plain sums).  The group output order is
then fixed by an explicit `$sort` stage, which the embeddings apply with a
stable insertion sort. -/

/-- Worker for `dedupFirst`: keep an element iff it is not among the keys
already seen. -/
def dedupGo [DecidableEq α] (seen : List α) : List α → List α
  | [] => []
  | x :: xs =>
    if seen.contains x then dedupGo seen xs
    else x :: dedupGo (seen ++ [x]) xs

/-- Keys of a list in order of first appearance, without duplicates. -/
def dedupFirst [DecidableEq α] (l : List α) : List α := dedupGo [] l

theorem mem_dedupGo [DecidableEq α] {l seen : List α} {a : α} :
    a ∈ dedupGo seen l ↔ a ∈ l ∧ a ∉ seen := by
  induction l generalizing seen with
  | nil => simp [dedupGo]
  | cons x xs ih =>
    by_cases hx : x ∈ seen
    · have hc : seen.contains x = true := List.elem_iff.mpr hx
      simp only [dedupGo, hc, if_true, ih, List.mem_cons]
      constructor
      · rintro ⟨h1, h2⟩; exact ⟨Or.inr h1, h2⟩
      · rintro ⟨h1 | h1, h2⟩
        · exact absurd (h1 ▸ hx) h2
        · exact ⟨h1, h2⟩
    · have hc : seen.contains x = false :=
        Bool.eq_false_iff.mpr (fun h => hx (List.elem_iff.mp h))
      simp only [dedupGo, hc, Bool.false_eq_true, if_false, List.mem_cons, ih,
        List.mem_append, List.mem_singleton]
      constructor
      · rintro (rfl | ⟨h1, h2⟩)
        · exact ⟨Or.inl rfl, hx⟩
        · exact ⟨Or.inr h1, fun hs => h2 (Or.inl hs)⟩
      · rintro ⟨rfl | h1, h2⟩
        · exact Or.inl rfl
        · by_cases hax : a = x
          · exact Or.inl hax
          · refine Or.inr ⟨h1, fun hs => ?_⟩
            simp only [List.mem_append, List.mem_cons, List.not_mem_nil,
              or_false] at hs
            exact hs.elim h2 hax

theorem mem_dedupFirst [DecidableEq α] {l : List α} {a : α} :
    a ∈ dedupFirst l ↔ a ∈ l := by
  simp [dedupFirst, mem_dedupGo]

theorem nodup_dedupGo [DecidableEq α] (l : List α) : ∀ seen : List α,
    (dedupGo seen l).Nodup := by
  induction l with
  | nil => intro seen; simp [dedupGo]
  | cons x xs ih =>
    intro seen
    by_cases hx : x ∈ seen
    · have hc : seen.contains x = true := List.elem_iff.mpr hx
      simp only [dedupGo, hc, if_true]
      exact ih seen
    · have hc : seen.contains x = false :=
        Bool.eq_false_iff.mpr (fun h => hx (List.elem_iff.mp h))
      simp only [dedupGo, hc, Bool.false_eq_true, if_false]
      refine List.nodup_cons.mpr ⟨?_, ih _⟩
      intro hmem
      exact (mem_dedupGo.mp hmem).2 (by simp)

theorem nodup_dedupFirst [DecidableEq α] (l : List α) :
    (dedupFirst l).Nodup := nodup_dedupGo l []

/-- Sum of a rational field over a list of rows. -/
def sumBy (f : α → ℚ) (l : List α) : ℚ := (l.map f).sum

/-- One output group of the `$group` stage shared by the statistics
endpoints: the group key (`_id`) and the four summed metrics
(`ItemsNetPrice` → totalSales, count → totalTransactions, `Quantity` →
totalQuantity, `NetTotal` → totalNetTotal). -/
structure GroupStat (κ : Type) where
  key : κ
  totalSales : ℚ
  totalTransactions : ℚ
  totalQuantity : ℚ
  totalNetTotal : ℚ
deriving DecidableEq, Repr

/-- The `$group` stage: partition `rows` by `key` and emit the four sums
per group.  Mongo's group output order is unspecified; the embeddings give
groups in order of first appearance and the handlers then apply their
explicit `$sort` stage. -/
def groupSums [DecidableEq κ] (key : SaleRow → κ) (rows : List SaleRow) :
    List (GroupStat κ) :=
  (dedupFirst (rows.map key)).map (fun k =>
    let g := rows.filter (fun r => key r == k)
    { key := k
      totalSales := sumBy (·.ItemsNetPrice) g
      totalTransactions := (g.length : ℚ)
      totalQuantity := sumBy (·.Quantity) g
      totalNetTotal := sumBy (·.NetTotal) g })

/-- `$sort: { totalSales: -1 }` — descending by totalSales. -/
def descBySales (a b : GroupStat κ) : Prop := b.totalSales ≤ a.totalSales

instance : DecidableRel (@descBySales κ) := fun a b =>
  inferInstanceAs (Decidable (_ ≤ _))

instance : IsTotal (GroupStat κ) descBySales :=
  ⟨fun a b => by unfold descBySales; exact (le_total a.totalSales b.totalSales).symm⟩

instance : IsTrans (GroupStat κ) descBySales :=
  ⟨fun _ _ _ hab hbc => le_trans hbc hab⟩

/-- `$sort: { '_id.year': 1, '_id.month': 1 }` — chronological ascending. -/
def monthAsc (a b : GroupStat (Nat × Nat)) : Prop :=
  a.key.1 < b.key.1 ∨ (a.key.1 = b.key.1 ∧ a.key.2 ≤ b.key.2)

instance : DecidableRel monthAsc := fun _ _ => inferInstanceAs (Decidable (_ ∨ _))

instance : IsTotal (GroupStat (Nat × Nat)) monthAsc :=
  ⟨fun a b => by unfold monthAsc; omega⟩

instance : IsTrans (GroupStat (Nat × Nat)) monthAsc :=
  ⟨fun a b c hab hbc => by unfold monthAsc at *; omega⟩

/-- `$sort: { '_id.year': 1, '_id.month': 1, '_id.day': 1 }`. -/
def dayAsc (a b : GroupStat (Nat × Nat × Nat)) : Prop :=
  a.key.1 < b.key.1 ∨
  (a.key.1 = b.key.1 ∧ (a.key.2.1 < b.key.2.1 ∨
    (a.key.2.1 = b.key.2.1 ∧ a.key.2.2 ≤ b.key.2.2)))

instance : DecidableRel dayAsc := fun _ _ => inferInstanceAs (Decidable (_ ∨ _))

instance : IsTotal (GroupStat (Nat × Nat × Nat)) dayAsc :=
  ⟨fun a b => by unfold dayAsc; omega⟩

instance : IsTrans (GroupStat (Nat × Nat × Nat)) dayAsc :=
  ⟨fun a b c hab hbc => by unfold dayAsc at *; omega⟩

/-! ## Invoice-type roll-up (`getSalesByInvoiceType`, lines 849-984)

After grouping by raw `InvoiceType` and sorting, the handler runs six
structurally identical blocks, one per normal/return pair.  Block `i`
(i) looks up, case-insensitively, each member of the pair in the group list
with `statistics.find(stat => stat.invoiceType && stat.invoiceType.toLowerCase() === key)`,
(ii) removes every group whose lowercased type is one of the twelve pair
member keys (the single `filter` at lines 898-912), and
(iii) if either member was found, appends one synthetic `Total X` entry
whose four metrics add the two finds with `(stat?.field || 0)`.
The six blocks run in source order (insurance, Online, CashCustomer,
CreditCustomer, Wasfaty, Normal), each appending to the filtered list, so
the result is the filtered list followed by the present pairs' totals in
that order — which is what `rollupInvoiceType` computes. -/

/-- The six case-insensitive pairs with their synthetic labels, in the
order the source blocks run. -/
def invoicePairs : List (String × String × String) :=
  [("insurance", "returninsurance", "Total insurance"),
   ("online", "returnonline", "Total Online"),
   ("cashcustomer", "returncashcustomer", "Total CashCustomer"),
   ("creditcustomer", "returncreditcustomer", "Total CreditCustomer"),
   ("wasfaty", "returnwasfaty", "Total Wasfaty"),
   ("normal", "return", "Total Normal")]

/-- The twelve lowercased member keys removed by the filter at lines
898-912, in source order. -/
def rollupKeys : List String :=
  invoicePairs.foldr (fun p acc => p.1 :: p.2.1 :: acc) []

/-- The six synthetic labels. -/
def totalLabels : List String := invoicePairs.map (fun p => p.2.2)

/-- `statistics.find(stat => stat.invoiceType && stat.invoiceType.toLowerCase() === k)` —
the truthiness guard makes an empty type string never match. -/
def findType (stats : List (GroupStat String)) (k : String) :
    Option (GroupStat String) :=
  stats.find? (fun s => !(s.key == "") && (toLowerCase s.key == k))

/-- `(stat?.field || 0)` — a found group's metric, or 0 when absent. -/
def optMetric (o : Option (GroupStat String)) (f : GroupStat String → ℚ) : ℚ :=
  (o.map f).getD 0

/-- One synthetic `Total X` entry (for example lines 976-982 for
`Total Normal`). -/
def totalEntry (stats : List (GroupStat String)) (pos neg label : String) :
    GroupStat String :=
  { key := label
    totalSales := optMetric (findType stats pos) (·.totalSales) +
      optMetric (findType stats neg) (·.totalSales)
    totalTransactions := optMetric (findType stats pos) (·.totalTransactions) +
      optMetric (findType stats neg) (·.totalTransactions)
    totalQuantity := optMetric (findType stats pos) (·.totalQuantity) +
      optMetric (findType stats neg) (·.totalQuantity)
    totalNetTotal := optMetric (findType stats pos) (·.totalNetTotal) +
      optMetric (findType stats neg) (·.totalNetTotal) }

/-- The filter at lines 898-912: drop every group whose lowercased invoice
type is a pair member. -/
def passThroughStats (stats : List (GroupStat String)) : List (GroupStat String) :=
  stats.filter (fun s => !(rollupKeys.contains (toLowerCase s.key)))

/-- The appended `Total X` entries of the present pairs, in block order. -/
def rollupTotals (stats : List (GroupStat String)) : List (GroupStat String) :=
  invoicePairs.filterMap (fun p =>
    if (findType stats p.1).isSome || (findType stats p.2.1).isSome
    then some (totalEntry stats p.1 p.2.1 p.2.2) else none)

/-- The full roll-up of lines 849-984. -/
def rollupInvoiceType (stats : List (GroupStat String)) : List (GroupStat String) :=
  passThroughStats stats ++ rollupTotals stats

/-! ## Percentages and summaries -/

/-- A group together with its percentage-of-grand-total. -/
structure PctStat (κ : Type) extends GroupStat κ where
  percentage : ℚ
deriving DecidableEq, Repr

/-- `percentage: grandTotalSales > 0 ? (stat.totalSales / grandTotalSales) * 100 : 0`
(lines 667-670, 761-764, 992-996, 1126-1130), against a given grand
total. -/
def pctWrap (grandTotalSales : ℚ) (s : GroupStat κ) : PctStat κ :=
  { toGroupStat := s
    percentage := if grandTotalSales > 0
      then s.totalSales / grandTotalSales * 100 else 0 }

/-- Attach each group's percentage of the list's own grand total. -/
def withPercentage (stats : List (GroupStat κ)) : List (PctStat κ) :=
  stats.map (pctWrap (sumBy (·.totalSales) stats))

/-! ## Responses and shared filters -/

/-- `parseInt(limit) || 100` and `parseInt(skip) || 0`: an absent (or zero,
by JavaScript truthiness) limit falls back to 100; an absent skip to 0. -/
def limitOr (dflt : Nat) : Option Nat → Nat
  | none => dflt
  | some n => if n == 0 then dflt else n

/-- `if (branchCode) query.BranchCode = parseInt(branchCode)` — an absent
parameter leaves the query unrestricted. -/
def matchBranch (branchCode : Option Int) (r : SaleRow) : Bool :=
  match branchCode with
  | none => true
  | some bc => r.BranchCode == bc

/-- `if (year && month)` build a `$gte`/`$lte` InvoiceDate range on the
month — both parameters present applies the filter, otherwise none. -/
def matchYearMonth (year month : Option Nat) (r : SaleRow) : Bool :=
  match year, month with
  | some y, some m => inMonthRange y m r.InvoiceDate
  | _, _ => true

/-- `.sort({ InvoiceDate: -1, createdAt: -1 })` — newest invoice date
first.  The `createdAt` tie-break is insertion order, which the stable
insertion sort preserves. -/
def dateDesc (a b : SaleRow) : Prop := dateLE b.InvoiceDate a.InvoiceDate

instance : DecidableRel dateDesc := fun _ _ =>
  inferInstanceAs (Decidable (_ = true))

instance : IsTotal SaleRow dateDesc :=
  ⟨fun a b => by
    unfold dateDesc dateLE
    simp only [Bool.or_eq_true, Bool.and_eq_true, decide_eq_true_eq, beq_iff_eq]
    omega⟩

instance : IsTrans SaleRow dateDesc :=
  ⟨fun a b c hab hbc => by
    unfold dateDesc dateLE at *
    simp only [Bool.or_eq_true, Bool.and_eq_true, decide_eq_true_eq,
      beq_iff_eq] at *
    omega⟩

/-! ## Listing endpoints -/

/-- A listing response body: `{ count, total, data }`. -/
structure ListPayload where
  count : Nat
  total : Nat
  data : List SaleRow
deriving DecidableEq, Repr

/-- `getDetailedSales` (`src/controllers/detailedSalesController.js`
lines 9-111): admin gate, filter construction, find with sort, skip and
limit, and a `countDocuments` total.  The regex filters (invoiceNumber,
salesName, customerName), the date-range filters and the `$text` search
are further independent conjuncts of the query not exercised by the
verified claims; their parameters are omitted here, so this embedding is
the handler at requests that leave them absent. -/
def getDetailedSales (user : Option UserT) (branchCode : Option Int)
    (invoiceType : Option String) (materialNumber : Option Int)
    (lim skp : Option Nat) (db : List SaleRow) : Resp ListPayload :=
  if !(adminCheck user) then .forbidden else
  let matched := db.filter (fun r =>
    matchBranch branchCode r &&
    (match invoiceType with
     | none => true
     | some it => r.InvoiceType == it) &&
    (match materialNumber with
     | none => true
     | some mn => r.MaterialNumber == mn))
  let data := ((List.insertionSort dateDesc matched).drop (limitOr 0 skp)).take
    (limitOr 100 lim)
  .ok { count := data.length, total := matched.length, data := data }

/-- The seven literal cash customer names of `getAllCashDetailedSales`
(lines 169-177). -/
def cashCustomerNames : List String :=
  ["N/A", "Milk Discount", "Hospitals & Clinics employee",
   "Ministry of Human Resources and Soc", "TAMARA", "Near Care",
   "Saudi Tabby for Communications and"]

/-- A cash listing response: `{ count, total, data, summary }` where the
summary holds the four zero-defaulted sums of the matched rows. -/
structure CashPayload where
  count : Nat
  total : Nat
  data : List SaleRow
  totalSales : ℚ
  totalTransactions : ℚ
  totalQuantity : ℚ
  totalNetTotal : ℚ
deriving DecidableEq, Repr

/-- `getAllCashDetailedSales` (lines 154-249): admin gate, then the query
`{ CustomerName: { $in: cashCustomerNames } }` plus optional branch and
year/month filters; the data page and a `$group: {_id: null}` summary
(zeros when no row matches, per the `summaryAgg.length > 0` check). -/
def getAllCashDetailedSales (user : Option UserT) (branchCode : Option Int)
    (year month : Option Nat) (lim skp : Option Nat) (db : List SaleRow) :
    Resp CashPayload :=
  if !(adminCheck user) then .forbidden else
  let matched := db.filter (fun r =>
    cashCustomerNames.contains r.CustomerName &&
    matchBranch branchCode r && matchYearMonth year month r)
  let data := ((List.insertionSort dateDesc matched).drop (limitOr 0 skp)).take
    (limitOr 100 lim)
  .ok { count := data.length, total := matched.length, data := data
        totalSales := sumBy (·.ItemsNetPrice) matched
        totalTransactions := (matched.length : ℚ)
        totalQuantity := sumBy (·.Quantity) matched
        totalNetTotal := sumBy (·.NetTotal) matched }

/-- The seventeen insurance company names of `getInsuranceSales`
(`src/unnamed/part_009` lines 447-465). -/
def insuranceCompanies : List String :=
  ["Al-Etihad Cooperative Insurance Com",
   "Allied Cooperative Insurance Group",
   "Al-Rajhi Company for Cooperative In",
   "Amana Cooperative Insurance Company",
   "Arabia Insurance Cooperative Compan",
   "Arabian Shield Cooperative Insuranc",
   "BUPA ARABIA",
   "Buruj Cooperative Insurance Company",
   "GOSI",
   "Gulf Union Alahlia Cooperateive",
   "Malaz",
   "MEDGULF",
   "Mena Medical Clinic",
   "Nextcare/Al Jazira Takaful Company",
   "Tawuniya",
   "Total/Al Sagr Cooperative Insurance",
   "United Cooperative Insurance Compan"]

/-- The `$or` insurance filter (part_009 lines 469-473): a row matches iff
its CustomerName matches one of the seventeen escaped case-insensitive
regexes, i.e. contains one of the company names ignoring case. -/
def insuranceMatch (r : SaleRow) : Bool :=
  insuranceCompanies.any (fun company => containsCI r.CustomerName company)

/-- `getInsuranceSales` (part_009 lines 420-614): admin gate, the `$and`
of the insurance filter with the other filters, sorted page and total.
The regex, date-range and `$text` parameters are omitted as in
`getDetailedSales` above. -/
def getInsuranceSales (user : Option UserT) (branchCode : Option Int)
    (invoiceNumber : Option Int) (invoiceType : Option String)
    (materialNumber : Option Int) (lim skp : Option Nat)
    (db : List SaleRow) : Resp ListPayload :=
  if !(adminCheck user) then .forbidden else
  let matched := db.filter (fun r =>
    insuranceMatch r &&
    matchBranch branchCode r &&
    (match invoiceNumber with
     | none => true
     | some n => r.InvoiceNumber == toString n) &&
    (match invoiceType with
     | none => true
     | some it => r.InvoiceType == it) &&
    (match materialNumber with
     | none => true
     | some mn => r.MaterialNumber == mn))
  let data := ((List.insertionSort dateDesc matched).drop (limitOr 0 skp)).take
    (limitOr 100 lim)
  .ok { count := data.length, total := matched.length, data := data }

/-! ## Statistics endpoints -/

/-- The `stats/summary` response body (lines 584-595). -/
structure SummaryPayload where
  totalSales : ℚ
  totalItems : ℚ
  totalDiscount : ℚ
  totalVAT : ℚ
  totalDeliveryFees : ℚ
  count : Nat
  averageSale : ℚ
deriving DecidableEq, Repr

/-- `getSalesStatistics` (lines 541-604): admin gate, optional branch and
date-range filters, then a single `$group: {_id: null}` over the matched
rows; `stats[0] ||` a zero default when no row matches (a `$group` over an
empty input emits no group). -/
def getSalesStatistics (user : Option UserT) (branchCode : Option Int)
    (startDate endDate : Option YMD) (db : List SaleRow) :
    Resp SummaryPayload :=
  if !(adminCheck user) then .forbidden else
  let matched := db.filter (fun r =>
    matchBranch branchCode r &&
    (match startDate, endDate with
     | some s, some e => dateLE s r.InvoiceDate && dateLE r.InvoiceDate e
     | _, _ => true))
  if matched.isEmpty then
    .ok { totalSales := 0, totalItems := 0, totalDiscount := 0, totalVAT := 0
          totalDeliveryFees := 0, count := 0, averageSale := 0 }
  else
    .ok { totalSales := sumBy (·.NetTotal) matched
          totalItems := sumBy (·.Quantity) matched
          totalDiscount := sumBy (·.TotalDiscount) matched
          totalVAT := sumBy (·.TotalVAT) matched
          totalDeliveryFees := sumBy (·.DeliveryFees) matched
          count := matched.length
          averageSale := sumBy (·.NetTotal) matched / (matched.length : ℚ) }

/-- A statistics response body: percentaged group list plus the summary
block (group count and three grand totals). -/
structure StatsPayload (κ : Type) where
  statistics : List (PctStat κ)
  groupCount : Nat
  totalSales : ℚ
  totalTransactions : ℚ
  totalQuantity : ℚ
deriving DecidableEq, Repr

/-- Summary block computed from a final group list: `reduce` of each
metric over the displayed groups (lines 986-990 and analogues). -/
def mkStatsPayload (stats : List (GroupStat κ)) : StatsPayload κ :=
  { statistics := withPercentage stats
    groupCount := stats.length
    totalSales := sumBy (·.totalSales) stats
    totalTransactions := sumBy (·.totalTransactions) stats
    totalQuantity := sumBy (·.totalQuantity) stats }

/-- `getSalesBySalesName` (lines 696-786): admin gate, optional branch and
year/month filters, `$group` by SalesName, `$sort` totalSales descending,
then percentages and summary. -/
def getSalesBySalesName (user : Option UserT) (branchCode : Option Int)
    (year month : Option Nat) (db : List SaleRow) :
    Resp (StatsPayload String) :=
  if !(adminCheck user) then .forbidden else
  let rows := db.filter (fun r =>
    matchBranch branchCode r && matchYearMonth year month r)
  let statistics := List.insertionSort descBySales (groupSums (·.SalesName) rows)
  .ok (mkStatsPayload statistics)

/-- `getSalesByInvoiceType` (lines 791-1018): admin gate, optional branch
and year/month filters, `$group` by InvoiceType, `$sort` totalSales
descending, the six-pair roll-up, then percentages and summary over the
rolled-up list. -/
def getSalesByInvoiceType (user : Option UserT) (branchCode : Option Int)
    (year month : Option Nat) (db : List SaleRow) :
    Resp (StatsPayload String) :=
  if !(adminCheck user) then .forbidden else
  let rows := db.filter (fun r =>
    matchBranch branchCode r && matchYearMonth year month r)
  let statistics := List.insertionSort descBySales
    (groupSums (·.InvoiceType) rows)
  let filteredStatistics := rollupInvoiceType statistics
  .ok (mkStatsPayload filteredStatistics)

/-- `getSalesByDay` (lines 1157-1266): admin gate, required year/month
range plus optional branch filter, `$group` by (year, month, day),
chronological ascending `$sort`, percentages and summary.  The
missing-parameter 400 branch is outside the verified claims; the
embedding takes the parsed year and month. -/
def getSalesByDay (user : Option UserT) (branchCode : Option Int)
    (year month : Nat) (db : List SaleRow) :
    Resp (StatsPayload (Nat × Nat × Nat)) :=
  if !(adminCheck user) then .forbidden else
  let rows := db.filter (fun r =>
    matchBranch branchCode r && inMonthRange year month r.InvoiceDate)
  let statistics := List.insertionSort dayAsc
    (groupSums (fun r =>
      (r.InvoiceDate.year, r.InvoiceDate.month, r.InvoiceDate.day)) rows)
  .ok (mkStatsPayload statistics)

/-! ## Branch-code statistics (`getPharmaciesByBranchCode`, lines 609-691) -/

/-- A Pharmacy document, with the fields this endpoint reads
(`src/models/Pharmacy.js`): its branch code and the optional supervisor
user reference. -/
structure PharmacyT where
  branchCode : Int
  supervisor : Option String
deriving DecidableEq, Repr

/-- One branch-code statistics entry (lines 650-654). -/
structure BranchStat where
  branchCode : Int
  pharmacyCount : Nat
  totalSales : ℚ
deriving DecidableEq, Repr

/-- A branch entry with its percentage (lines 667-670). -/
structure PctBranchStat extends BranchStat where
  percentage : ℚ
deriving DecidableEq, Repr

/-- `statistics.sort((a, b) => a.branchCode - b.branchCode)` (line 659) —
ascending by branch code. -/
def branchAsc (a b : BranchStat) : Prop := a.branchCode ≤ b.branchCode

instance : DecidableRel branchAsc := fun a b =>
  inferInstanceAs (Decidable (a.branchCode ≤ b.branchCode))

instance : IsTotal BranchStat branchAsc :=
  ⟨fun a b => le_total a.branchCode b.branchCode⟩

instance : IsTrans BranchStat branchAsc :=
  ⟨fun _ _ _ hab hbc => le_trans hab hbc⟩

/-- The branch-code statistics response body (lines 672-682). -/
structure BranchPayload where
  statistics : List PctBranchStat
  totalBranchCodes : Nat
  totalPharmacies : Nat
  totalSales : ℚ
deriving DecidableEq, Repr

/-- `getPharmaciesByBranchCode` (lines 609-691): admin gate (the
`branchCodeQuery` stays empty — the "filtered by supervisor" comments are
dead), distinct branch codes of the sales rows, per-branch `ItemsNetPrice`
sums via `salesMap` with `|| 0` fallback, per-branch pharmacy counts, sort
ascending by branch code, then percentages and summary. -/
def getPharmaciesByBranchCode (user : Option UserT)
    (pharmacies : List PharmacyT) (db : List SaleRow) : Resp BranchPayload :=
  if !(adminCheck user) then .forbidden else
  let distinctBranchCodes := dedupFirst (db.map (·.BranchCode))
  let salesByBranch := groupSums (·.BranchCode) db
  let salesMap : Int → ℚ := fun bc =>
    ((salesByBranch.find? (fun g => g.key == bc)).map (·.totalSales)).getD 0
  let statistics : List BranchStat := distinctBranchCodes.map (fun bc =>
    { branchCode := bc
      pharmacyCount := (pharmacies.filter (fun p => p.branchCode == bc)).length
      totalSales := salesMap bc })
  let sorted := List.insertionSort branchAsc statistics
  let grandTotalSales := sumBy (·.totalSales) sorted
  .ok { statistics := sorted.map (fun s =>
          { toBranchStat := s
            percentage := if grandTotalSales > 0
              then s.totalSales / grandTotalSales * 100 else 0 })
        totalBranchCodes := distinctBranchCodes.length
        totalPharmacies := pharmacies.length
        totalSales := grandTotalSales }

/-! ## Month statistics (`getSalesByMonth`, lines 1023-1152) -/

/-- The month-name table at lines 1095-1098. -/
def monthNames : List String :=
  ["January", "February", "March", "April", "May", "June",
   "July", "August", "September", "October", "November", "December"]

/-- One month statistics entry (lines 1106-1117). -/
structure MonthStat where
  year : Nat
  month : Nat
  monthName : String
  totalSales : ℚ
  totalTransactions : ℚ
  totalQuantity : ℚ
  totalNetTotal : ℚ
  averageSalesPerDay : ℚ
  daysWithInvoices : Nat
deriving DecidableEq, Repr

/-- A month entry with its percentage (lines 1126-1130). -/
structure PctMonthStat extends MonthStat where
  percentage : ℚ
deriving DecidableEq, Repr

/-- The by-month response body (lines 1132-1143). -/
structure MonthPayload where
  statistics : List PctMonthStat
  totalMonths : Nat
  totalSales : ℚ
  totalTransactions : ℚ
  totalQuantity : ℚ
deriving DecidableEq, Repr

/-- The `daysWithInvoices` pipeline (lines 1065-1092): first `$group` by
(year, month, day) — the distinct invoice-bearing day triples — then
`$group` by (year, month) counting them, stored in `daysMap` and read back
with `daysMap[key] || 0`.  The composite gives, for each (year, month),
the number of distinct day triples of that month (0 when the month has no
row, whether because the count is absent from the map or zero). -/
def daysWithInvoicesFor (rows : List SaleRow) (y m : Nat) : Nat :=
  ((dedupFirst (rows.map (fun r =>
      (r.InvoiceDate.year, r.InvoiceDate.month, r.InvoiceDate.day)))).filter
    (fun k => k.1 == y && k.2.1 == m)).length

/-- `getSalesByMonth` (lines 1023-1152): admin gate, optional branch
filter, `$group` by (year, month) with chronological `$sort`, the
days-with-invoices map, `averageSalesPerDay` guarded by
`daysWithInvoicesCount > 0`, then percentages and summary. -/
def getSalesByMonth (user : Option UserT) (branchCode : Option Int)
    (db : List SaleRow) : Resp MonthPayload :=
  if !(adminCheck user) then .forbidden else
  let rows := db.filter (matchBranch branchCode)
  let salesByMonth := List.insertionSort monthAsc
    (groupSums (fun r => (r.InvoiceDate.year, r.InvoiceDate.month)) rows)
  let statistics : List MonthStat := salesByMonth.map (fun g =>
    let daysWithInvoicesCount := daysWithInvoicesFor rows g.key.1 g.key.2
    { year := g.key.1
      month := g.key.2
      monthName := monthNames.getD (g.key.2 - 1) ""
      totalSales := g.totalSales
      totalTransactions := g.totalTransactions
      totalQuantity := g.totalQuantity
      totalNetTotal := g.totalNetTotal
      averageSalesPerDay := if daysWithInvoicesCount > 0
        then g.totalSales / (daysWithInvoicesCount : ℚ) else 0
      daysWithInvoices := daysWithInvoicesCount })
  let grandTotalSales := sumBy (·.totalSales) statistics
  .ok { statistics := statistics.map (fun s =>
          { toMonthStat := s
            percentage := if grandTotalSales > 0
              then s.totalSales / grandTotalSales * 100 else 0 })
        totalMonths := statistics.length
        totalSales := grandTotalSales
        totalTransactions := sumBy (·.totalTransactions) statistics
        totalQuantity := sumBy (·.totalQuantity) statistics }

/-! ## Incentive items (`src/unnamed/part_007`)

An incentive item as it travels through the handlers: the request body and
the stored document share this shape.  `none` models an absent (undefined)
field; the schema (`src/unnamed/part_012`) requires `SAP_Code` (unique)
and `Price`, while `IncentivePercentage` and `incentive value` are
optional. -/

structure IncentiveItemT where
  SAP_Code : Option Int
  Price : Option ℚ
  IncentivePercentage : Option ℚ
  incentiveValue : Option ℚ
deriving DecidableEq, Repr

/-- JavaScript truthiness of an optional number: `undefined`, `null` and
`0` are falsy. -/
def truthy (o : Option ℚ) : Bool := !(o.getD 0 == 0)

/-- The write-time derivation shared by `createIncentiveItem` (lines
200-203) and `bulkCreateIncentiveItems` (lines 384-389):

  `if (x.Price && x.IncentivePercentage && !x['incentive value'])
     x['incentive value'] = x.Price * x.IncentivePercentage` -/
def deriveIncentiveValue (item : IncentiveItemT) : IncentiveItemT :=
  if truthy item.Price && truthy item.IncentivePercentage &&
      !(truthy item.incentiveValue) then
    { item with
      incentiveValue := some (item.Price.getD 0 * item.IncentivePercentage.getD 0) }
  else item

/-- The update-time recomputation of `updateIncentiveItem` (lines
255-268): when the body carries a truthy Price or IncentivePercentage and
the target item exists, take the effective price and percentage (body
value if not undefined, else the existing item's) and, when both are
truthy, overwrite the body's `incentive value` with their product. -/
def recomputeIncentiveValue (body : IncentiveItemT)
    (existingItem : Option IncentiveItemT) : IncentiveItemT :=
  if truthy body.Price || truthy body.IncentivePercentage then
    match existingItem with
    | some ex =>
      let price : Option ℚ := match body.Price with
        | some v => some v
        | none => ex.Price
      let percentage : Option ℚ := match body.IncentivePercentage with
        | some v => some v
        | none => ex.IncentivePercentage
      if truthy price && truthy percentage then
        { body with incentiveValue := some (price.getD 0 * percentage.getD 0) }
      else body
    | none => body
  else body

/-- `findByIdAndUpdate(id, body)`: the stored document keeps every field
the body leaves undefined and takes every field the body sets. -/
def mergeIncentive (ex body : IncentiveItemT) : IncentiveItemT :=
  { SAP_Code := match body.SAP_Code with | some v => some v | none => ex.SAP_Code
    Price := match body.Price with | some v => some v | none => ex.Price
    IncentivePercentage := match body.IncentivePercentage with
      | some v => some v | none => ex.IncentivePercentage
    incentiveValue := match body.incentiveValue with
      | some v => some v | none => ex.incentiveValue }

/-- `createIncentiveItem` (part_007 lines 187-237): admin gate, the
incentive-value derivation on the body, duplicate-SAP_Code rejection (the
`error.code === 11000` branch), then the insert.  Field validation is not
exercised by the verified claims. -/
def createIncentiveItem (user : Option UserT) (store : List IncentiveItemT)
    (body : IncentiveItemT) : List IncentiveItemT × Resp IncentiveItemT :=
  if !(adminCheck user) then (store, .forbidden) else
  let b := deriveIncentiveValue body
  if (store.map (·.SAP_Code)).contains b.SAP_Code then
    (store, .badRequest "Duplicate SAP Code")
  else (store ++ [b], .ok b)

/-- `updateIncentiveItem` (part_007 lines 242-316): admin gate, the
recomputation on the body, then `findByIdAndUpdate` with the merged
document (404 when the target does not exist). -/
def updateIncentiveItem (user : Option UserT)
    (existingItem : Option IncentiveItemT) (body : IncentiveItemT) :
    Resp IncentiveItemT :=
  if !(adminCheck user) then .forbidden else
  let b := recomputeIncentiveValue body existingItem
  match existingItem with
  | none => .serverError "Incentive item not found"
  | some ex => .ok (mergeIncentive ex b)

/-! ## Bulk insert

Modelled from the spec: the database driver's `insertMany` with
`ordered: false` — absent from `src/` (it is library code) — walks the
items in order; an item whose unique key collides with an already-stored
document fails and is recorded in `writeErrors` with its zero-based index,
and every other item is inserted regardless of the failures
("one item's failure doesn't abort others").  `keyOf` gives an item's
unique-indexed key, or `none` for a collection without a unique index. -/

def insertManyGo (keyOf : α → Option Int) (st : List α)
    (errs : List WriteError) (i : Nat) : List α → List α × List WriteError
  | [] => (st, errs)
  | item :: rest =>
    match keyOf item with
    | some k =>
      if (st.filterMap keyOf).contains k then
        insertManyGo keyOf st (errs ++ [⟨i, "E11000 duplicate key error"⟩])
          (i + 1) rest
      else insertManyGo keyOf (st ++ [item]) errs (i + 1) rest
    | none => insertManyGo keyOf (st ++ [item]) errs (i + 1) rest

/-- Modelled from the spec: `Model.insertMany(items, { ordered: false })`
against a store holding `existing`: the final store and the write-error
list. -/
def insertManyUnordered (keyOf : α → Option Int) (existing items : List α) :
    List α × List WriteError :=
  insertManyGo keyOf existing [] 0 items

/-- `bulkCreateIncentiveItems` (part_007 lines 361-420): admin gate, the
empty-array 400, the per-item incentive-value derivation, `insertMany`
with `ordered: false` on the unique `SAP_Code`, and the catch branch that
maps `error.writeErrors` to 400 `{ index, error }` entries; without write
errors, 201 with the inserted items. -/
def bulkCreateIncentiveItems (user : Option UserT)
    (store : List IncentiveItemT) (items : Option (List IncentiveItemT)) :
    List IncentiveItemT × Resp (List IncentiveItemT) :=
  if !(adminCheck user) then (store, .forbidden) else
  match items with
  | none => (store, .badRequest "Items array is required and must not be empty")
  | some its =>
    if its.isEmpty then
      (store, .badRequest "Items array is required and must not be empty")
    else
      let processedItems := its.map deriveIncentiveValue
      let result := insertManyUnordered (·.SAP_Code) store processedItems
      if result.2.isEmpty then (result.1, .ok processedItems)
      else (result.1, .failedItems result.2)

/-- `createBulkDetailedSales` (`src/controllers/detailedSalesController.js`
lines 387-436): admin gate, the empty-array 400, `insertMany` with
`ordered: false`.  The DetailedSales schema (part_013) declares no unique
index, so no write conflict can arise (`keyOf` is constantly `none`); its
catch handles only `ValidationError`, so a bulk write error would fall
through to the 500 branch — there is no `writeErrors` mapping in this
handler. -/
def createBulkDetailedSales (user : Option UserT) (store : List SaleRow)
    (sales : Option (List SaleRow)) : List SaleRow × Resp (List SaleRow) :=
  if !(adminCheck user) then (store, .forbidden) else
  match sales with
  | none => (store, .badRequest "Sales array is required and must not be empty")
  | some its =>
    if its.isEmpty then
      (store, .badRequest "Sales array is required and must not be empty")
    else
      let result := insertManyUnordered (fun _ => none) store its
      if result.2.isEmpty then (result.1, .ok its)
      else (result.1, .serverError "Error creating bulk detailed sales")

/-! ## The DetailedSales schema (`src/unnamed/part_013`, lines 46-128)

Write-time validation: a request body with optional (possibly absent)
fields, the schema defaults, the required/enum/min validators, and the
stored document produced by an accepted write. -/

/-- A DetailedSales request body; `none` is an absent field. -/
structure SaleInput where
  BranchCode : Option Int
  InvoiceNumber : Option String
  InvoiceDate : Option YMD
  InvoiceTime : Option String
  InvoiceType : Option String
  SalesName : Option String
  MaterialNumber : Option Int
  Name : Option String
  UnitOfMeasurement : Option String
  Quantity : Option ℚ
  ItemUnitPrice : Option ℚ
  TotalDiscount : Option ℚ
  ItemsNetPrice : Option ℚ
  TotalVAT : Option ℚ
  NetTotal : Option ℚ
  DeliveryFees : Option ℚ
deriving DecidableEq, Repr

/-- The schema defaults: `InvoiceType: 'Normal'`, `TotalDiscount: 0`,
`TotalVAT: 0`, `DeliveryFees: 0` fill absent fields before validation. -/
def applyDefaults (d : SaleInput) : SaleInput :=
  { d with
    InvoiceType := some (d.InvoiceType.getD "Normal")
    TotalDiscount := some (d.TotalDiscount.getD 0)
    TotalVAT := some (d.TotalVAT.getD 0)
    DeliveryFees := some (d.DeliveryFees.getD 0) }

/-- The `enum: ['Normal', 'Return', 'Exchange', 'Other']` values. -/
def invoiceTypeEnum : List String := ["Normal", "Return", "Exchange", "Other"]

/-- The document validators: every `required` field present, the
InvoiceType enum, and the seven `min: 0` bounds. -/
def validateSaleInput (d : SaleInput) : Bool :=
  d.BranchCode.isSome && d.InvoiceNumber.isSome && d.InvoiceDate.isSome &&
  d.InvoiceTime.isSome &&
  (match d.InvoiceType with
   | some t => invoiceTypeEnum.contains t
   | none => false) &&
  d.SalesName.isSome && d.MaterialNumber.isSome && d.Name.isSome &&
  d.UnitOfMeasurement.isSome &&
  (match d.Quantity with | some q => decide (0 ≤ q) | none => false) &&
  (match d.ItemUnitPrice with | some q => decide (0 ≤ q) | none => false) &&
  (match d.TotalDiscount with | some q => decide (0 ≤ q) | none => false) &&
  (match d.ItemsNetPrice with | some q => decide (0 ≤ q) | none => false) &&
  (match d.TotalVAT with | some q => decide (0 ≤ q) | none => false) &&
  (match d.NetTotal with | some q => decide (0 ≤ q) | none => false) &&
  (match d.DeliveryFees with | some q => decide (0 ≤ q) | none => false)

/-- A stored DetailedSales document (all schema fields materialised). -/
structure StoredSale where
  BranchCode : Int
  InvoiceNumber : String
  InvoiceDate : YMD
  InvoiceTime : String
  InvoiceType : String
  SalesName : String
  MaterialNumber : Int
  Name : String
  UnitOfMeasurement : String
  Quantity : ℚ
  ItemUnitPrice : ℚ
  TotalDiscount : ℚ
  ItemsNetPrice : ℚ
  TotalVAT : ℚ
  NetTotal : ℚ
  DeliveryFees : ℚ
deriving DecidableEq, Repr

/-- The stored document of an accepted body (defaults already applied;
the fallback arguments are never reached on a validated body). -/
def toStored (d : SaleInput) : StoredSale :=
  { BranchCode := d.BranchCode.getD 0
    InvoiceNumber := d.InvoiceNumber.getD ""
    InvoiceDate := d.InvoiceDate.getD ⟨0, 0, 0⟩
    InvoiceTime := d.InvoiceTime.getD ""
    InvoiceType := d.InvoiceType.getD "Normal"
    SalesName := d.SalesName.getD ""
    MaterialNumber := d.MaterialNumber.getD 0
    Name := d.Name.getD ""
    UnitOfMeasurement := d.UnitOfMeasurement.getD ""
    Quantity := d.Quantity.getD 0
    ItemUnitPrice := d.ItemUnitPrice.getD 0
    TotalDiscount := d.TotalDiscount.getD 0
    ItemsNetPrice := d.ItemsNetPrice.getD 0
    TotalVAT := d.TotalVAT.getD 0
    NetTotal := d.NetTotal.getD 0
    DeliveryFees := d.DeliveryFees.getD 0 }

/-- The invariant claimed of every accepted document: enumerated invoice
type and the seven non-negative numeric fields. -/
def saleInvariant (s : StoredSale) : Prop :=
  s.InvoiceType ∈ invoiceTypeEnum ∧ 0 ≤ s.Quantity ∧ 0 ≤ s.ItemUnitPrice ∧
  0 ≤ s.ItemsNetPrice ∧ 0 ≤ s.NetTotal ∧ 0 ≤ s.TotalDiscount ∧
  0 ≤ s.TotalVAT ∧ 0 ≤ s.DeliveryFees

instance (s : StoredSale) : Decidable (saleInvariant s) :=
  inferInstanceAs (Decidable (_ ∧ _))

/-- `DetailedSales.create(req.body)` (`createDetailedSale`, line 358):
defaults, validation, and insertion on success (`false` is the
ValidationError 400 path). -/
def createSaleOp (state : List StoredSale) (body : SaleInput) :
    List StoredSale × Bool :=
  let doc := applyDefaults body
  if validateSaleInput doc then (state ++ [toStored doc], true)
  else (state, false)

/-- `DetailedSales.insertMany(sales, { ordered: false })` (line 409):
each body is validated independently; the valid ones are inserted. -/
def insertManySalesOp (state : List StoredSale) (bodies : List SaleInput) :
    List StoredSale :=
  bodies.foldl (fun st b => (createSaleOp st b).1) state

/-- The update validators run by `findByIdAndUpdate(..., { runValidators:
true })` (`updateDetailedSale`, lines 463-470): each field present in the
update body must satisfy its own enum/min validator. -/
def validateSaleUpdate (body : SaleInput) : Bool :=
  (match body.InvoiceType with
   | some t => invoiceTypeEnum.contains t
   | none => true) &&
  (match body.Quantity with | some q => decide (0 ≤ q) | none => true) &&
  (match body.ItemUnitPrice with | some q => decide (0 ≤ q) | none => true) &&
  (match body.TotalDiscount with | some q => decide (0 ≤ q) | none => true) &&
  (match body.ItemsNetPrice with | some q => decide (0 ≤ q) | none => true) &&
  (match body.TotalVAT with | some q => decide (0 ≤ q) | none => true) &&
  (match body.NetTotal with | some q => decide (0 ≤ q) | none => true) &&
  (match body.DeliveryFees with | some q => decide (0 ≤ q) | none => true)

/-- The updated document: every field the body sets overwrites the
existing one. -/
def mergeSale (ex : StoredSale) (body : SaleInput) : StoredSale :=
  { BranchCode := body.BranchCode.getD ex.BranchCode
    InvoiceNumber := body.InvoiceNumber.getD ex.InvoiceNumber
    InvoiceDate := body.InvoiceDate.getD ex.InvoiceDate
    InvoiceTime := body.InvoiceTime.getD ex.InvoiceTime
    InvoiceType := body.InvoiceType.getD ex.InvoiceType
    SalesName := body.SalesName.getD ex.SalesName
    MaterialNumber := body.MaterialNumber.getD ex.MaterialNumber
    Name := body.Name.getD ex.Name
    UnitOfMeasurement := body.UnitOfMeasurement.getD ex.UnitOfMeasurement
    Quantity := body.Quantity.getD ex.Quantity
    ItemUnitPrice := body.ItemUnitPrice.getD ex.ItemUnitPrice
    TotalDiscount := body.TotalDiscount.getD ex.TotalDiscount
    ItemsNetPrice := body.ItemsNetPrice.getD ex.ItemsNetPrice
    TotalVAT := body.TotalVAT.getD ex.TotalVAT
    NetTotal := body.NetTotal.getD ex.NetTotal
    DeliveryFees := body.DeliveryFees.getD ex.DeliveryFees }

/-- `updateDetailedSale` write step: the validated merge (on validator
failure the document is unchanged and the handler 400s). -/
def updateSaleOp (ex : StoredSale) (body : SaleInput) : StoredSale × Bool :=
  if validateSaleUpdate body then (mergeSale ex body, true) else (ex, false)

/-! ## Shared evaluation lemmas -/

theorem lower_pharmacy_supervisor :
    toLowerCase "pharmacy supervisor" = "pharmacy supervisor" := by decide

theorem lower_admin_cap : toLowerCase "Admin" = "admin" := by decide

theorem lower_Normal : toLowerCase "Normal" = "normal" := by decide

theorem lower_Return : toLowerCase "Return" = "return" := by decide

theorem lower_Exchange : toLowerCase "Exchange" = "exchange" := by decide

/-- With every optional filter absent, the row filter of the listing and
statistics handlers keeps every row. -/
theorem matchBranch_none (r : SaleRow) : matchBranch none r = true := rfl

theorem matchYearMonth_none (r : SaleRow) : matchYearMonth none none r = true := rfl

/-! ## C1 — access rule of the detailed-sales and statistics endpoints

The claim says admins see everything, supervisors see exactly their own
branches, and other roles get 403.  The handlers in
`src/controllers/detailedSalesController.js` gate every one of these
endpoints on `user.role.toLowerCase() === 'admin'`: a requester with role
"pharmacy supervisor" is turned away with 403 exactly like any other
non-admin role, even for a branch code whose pharmacy records them as
supervisor.  (The "filtered by supervisor if applicable" comments in the
source have no code behind them; `branchCodeQuery` stays `{}`.) -/

/-- C1 counterexample: the requester with role "pharmacy supervisor" is
the recorded supervisor of the branch-1 pharmacy, yet both the
detailed-sales listing and the invoice-type statistics endpoint answer
403 Forbidden for branch 1 — not the branch-1 rows the claim promises. -/
theorem C1_supervisor_denied_cex :
    (∃ ph ∈ [PharmacyT.mk 1 (some "u1")],
      ph.branchCode = 1 ∧ ph.supervisor = some "u1") ∧
    getDetailedSales (some ⟨"u1", "pharmacy supervisor"⟩) (some 1) none none
      none none [baseRow] = .forbidden ∧
    getSalesByInvoiceType (some ⟨"u1", "pharmacy supervisor"⟩) (some 1) none
      none [baseRow] = .forbidden := by
  refine ⟨⟨⟨1, some "u1"⟩, by simp⟩, ?_, ?_⟩ <;> decide

/-- C1 amended: an admin requester is subject to no branch restriction —
with no filters the listing counts every row of the collection and returns
a permutation of it (up to the default page size) — while every requester
whose role does not lowercase to "admin", including "pharmacy supervisor",
receives 403 Forbidden from the detailed-sales listing and the
invoice-type statistics endpoint. -/
theorem C1_access_rule_amended (u : Option UserT) (db : List SaleRow)
    (bc : Option Int) (it : Option String) (mn : Option Int)
    (lim skp : Option Nat) (y m : Option Nat) :
    (adminCheck u = false →
      getDetailedSales u bc it mn lim skp db = .forbidden ∧
      getSalesByInvoiceType u bc y m db = .forbidden) ∧
    (adminCheck u = true → db.length ≤ 100 →
      ∃ p : ListPayload,
        getDetailedSales u none none none none none db = .ok p ∧
        p.total = db.length ∧ p.data.Perm db) := by
  constructor
  · intro h
    constructor
    · simp [getDetailedSales, h]
    · simp [getSalesByInvoiceType, h]
  · intro h hlen
    have hfilter : db.filter (fun r =>
        matchBranch none r &&
        (match (none : Option String) with
         | none => true
         | some it => r.InvoiceType == it) &&
        (match (none : Option Int) with
         | none => true
         | some mn => r.MaterialNumber == mn)) = db := by
      simp [matchBranch]
    have hsort := List.perm_insertionSort dateDesc db
    have hle : (List.insertionSort dateDesc db).length ≤ 100 :=
      le_trans (le_of_eq hsort.length_eq) hlen
    have hrun : getDetailedSales u none none none none none db =
        .ok ⟨(List.insertionSort dateDesc db).length, db.length,
          List.insertionSort dateDesc db⟩ := by
      unfold getDetailedSales
      simp only [h, Bool.not_true, Bool.false_eq_true, if_false, hfilter,
        limitOr, List.drop_zero, List.take_of_length_le hle]
    exact ⟨_, hrun, rfl, hsort⟩

/-- C1 witness: a plain "user" role is denied, and an admin with a
two-row collection gets both rows counted and returned. -/
theorem C1_access_rule_witness :
    getDetailedSales (some ⟨"u2", "user"⟩) none none none none none
      [baseRow] = .forbidden ∧
    ∃ p : ListPayload,
      getDetailedSales (some ⟨"a1", "Admin"⟩) none none none none none
        [baseRow, { baseRow with BranchCode := 2 }] = .ok p ∧
      p.total = 2 ∧ p.data.Perm [baseRow, { baseRow with BranchCode := 2 }] := by
  constructor
  · exact ((C1_access_rule_amended (some ⟨"u2", "user"⟩) [baseRow]
      none none none none none none none).1 (by decide)).1
  · exact (C1_access_rule_amended (some ⟨"a1", "Admin"⟩)
      [baseRow, { baseRow with BranchCode := 2 }]
      none none none none none none none).2 (by decide) (by decide)

/-! ## C3 — supervisor with zero pharmacies on the statistics endpoints

The claim promises a 200 with an empty result.  The handlers
(`getSalesStatistics` lines 547-553, `getSalesByMonth` lines 1029-1035)
reject every non-admin requester with 403 before any data is read, so a
"pharmacy supervisor" — with or without assigned pharmacies — never
reaches the empty-result path; no such path exists in the code. -/

/-- C3 counterexample: a "pharmacy supervisor" who supervises no pharmacy
(the pharmacy list records a different supervisor) calls the summary and
by-month statistics endpoints without a branchCode and receives 403
Forbidden, not the claimed 200 empty success. -/
theorem C3_zero_pharmacies_cex :
    ([PharmacyT.mk 1 (some "other")].filter
        (fun ph => ph.supervisor == some "u9")).length = 0 ∧
    getSalesStatistics (some ⟨"u9", "pharmacy supervisor"⟩) none none none
      [baseRow] = .forbidden ∧
    getSalesByMonth (some ⟨"u9", "pharmacy supervisor"⟩) none
      [baseRow] = .forbidden := by
  refine ⟨by decide, ?_, ?_⟩ <;> decide

/-- C3 amended: every requester whose role does not lowercase to "admin"
— in particular a "pharmacy supervisor" with zero assigned pharmacies —
receives 403 Forbidden from the no-branchCode summary and by-month
statistics calls; only admins reach the statistics computation. -/
theorem C3_statistics_forbidden_amended (u : Option UserT)
    (db : List SaleRow) (h : adminCheck u = false) :
    getSalesStatistics u none none none db = .forbidden ∧
    getSalesByMonth u none db = .forbidden := by
  constructor
  · simp [getSalesStatistics, h]
  · simp [getSalesByMonth, h]

/-- C3 witness: the amended statement at a concrete supervisor and a
one-row collection. -/
theorem C3_statistics_forbidden_witness :
    getSalesStatistics (some ⟨"u3", "pharmacy supervisor"⟩) none none none
      [baseRow] = .forbidden ∧
    getSalesByMonth (some ⟨"u3", "pharmacy supervisor"⟩) none
      [baseRow] = .forbidden :=
  C3_statistics_forbidden_amended (some ⟨"u3", "pharmacy supervisor"⟩)
    [baseRow] (by decide)

/-! ## C5 — the cash and insurance customer-set filters -/

theorem startsWithChars_iff : ∀ p h : List Char,
    startsWithChars p h = true ↔ p <+: h
  | [], h => by simp [startsWithChars]
  | p :: ps, [] => by simp [startsWithChars]
  | p :: ps, h :: hs => by
    simp [startsWithChars, List.cons_prefix_cons, startsWithChars_iff ps hs]

theorem containsChars_iff (p : List Char) : ∀ h : List Char,
    containsChars p h = true ↔ p <:+: h
  | [] => by simp [containsChars, startsWithChars_iff]
  | h :: hs => by
    simp [containsChars, startsWithChars_iff, containsChars_iff p hs,
      List.infix_cons_iff]

/-- The escaped case-insensitive regex of the insurance filter holds iff
the company name occurs, lowercased, inside the lowercased customer
name. -/
theorem containsCI_iff (hay pat : String) :
    containsCI hay pat = true ↔
      (toLowerCase pat).data <:+: (toLowerCase hay).data := by
  simp [containsCI, containsChars_iff]

/-- The row set a cash endpoint matches, as the spec words it: rows whose
CustomerName is one of the seven literal strings. -/
def cashRows (db : List SaleRow) : List SaleRow :=
  db.filter (fun r => decide (r.CustomerName ∈ cashCustomerNames))

/-- The row set an insurance endpoint matches, as the spec words it: rows
whose CustomerName contains, case-insensitively, one of the seventeen
company names. -/
def insuranceRows (db : List SaleRow) : List SaleRow :=
  db.filter (fun r => decide (∃ c ∈ insuranceCompanies,
    (toLowerCase c).data <:+: (toLowerCase r.CustomerName).data))

/-- C5: with no further filters, the cash listing returns exactly the rows
whose CustomerName is one of the 7 literal cash names (exact set
membership) — both the page, up to ordering, and the total — and the
insurance listing returns exactly the rows whose CustomerName contains,
case-insensitively, at least one of the 17 company names. -/
theorem C5_customer_set_filters (u : Option UserT) (db : List SaleRow)
    (h : adminCheck u = true) (hlen : db.length ≤ 100) :
    (∃ p : CashPayload,
      getAllCashDetailedSales u none none none none none db = .ok p ∧
      p.data.Perm (cashRows db) ∧ p.total = (cashRows db).length) ∧
    (∃ q : ListPayload,
      getInsuranceSales u none none none none none none db = .ok q ∧
      q.data.Perm (insuranceRows db) ∧ q.total = (insuranceRows db).length) := by
  constructor
  · have hfilter : db.filter (fun r =>
        cashCustomerNames.contains r.CustomerName &&
        matchBranch none r && matchYearMonth none none r) = cashRows db := by
      apply List.filter_congr
      intro r _
      simp [matchBranch, matchYearMonth, cashRows, List.elem_iff]
    have hsort := List.perm_insertionSort dateDesc (cashRows db)
    have hle : (List.insertionSort dateDesc (cashRows db)).length ≤ 100 := by
      rw [hsort.length_eq]
      exact le_trans (List.length_filter_le _ _) hlen
    have hrun : getAllCashDetailedSales u none none none none none db =
        .ok ⟨(List.insertionSort dateDesc (cashRows db)).length,
          (cashRows db).length, List.insertionSort dateDesc (cashRows db),
          sumBy (·.ItemsNetPrice) (cashRows db), ((cashRows db).length : ℚ),
          sumBy (·.Quantity) (cashRows db), sumBy (·.NetTotal) (cashRows db)⟩ := by
      unfold getAllCashDetailedSales
      simp only [h, Bool.not_true, Bool.false_eq_true, if_false, hfilter,
        limitOr, List.drop_zero, List.take_of_length_le hle]
    exact ⟨_, hrun, hsort, rfl⟩
  · have hfilter : db.filter (fun r =>
        insuranceMatch r && matchBranch none r &&
        (match (none : Option Int) with
         | none => true
         | some n => r.InvoiceNumber == toString n) &&
        (match (none : Option String) with
         | none => true
         | some it => r.InvoiceType == it) &&
        (match (none : Option Int) with
         | none => true
         | some mn => r.MaterialNumber == mn)) = insuranceRows db := by
      apply List.filter_congr
      intro r _
      simp only [matchBranch, Bool.and_true, insuranceRows, insuranceMatch]
      rw [Bool.eq_iff_iff]
      simp only [List.any_eq_true, decide_eq_true_eq]
      constructor
      · rintro ⟨c, hc, hm⟩
        exact ⟨c, hc, (containsCI_iff _ _).mp hm⟩
      · rintro ⟨c, hc, hm⟩
        exact ⟨c, hc, (containsCI_iff _ _).mpr hm⟩
    have hsort := List.perm_insertionSort dateDesc (insuranceRows db)
    have hle : (List.insertionSort dateDesc (insuranceRows db)).length ≤ 100 := by
      rw [hsort.length_eq]
      exact le_trans (List.length_filter_le _ _) hlen
    have hrun : getInsuranceSales u none none none none none none db =
        .ok ⟨(List.insertionSort dateDesc (insuranceRows db)).length,
          (insuranceRows db).length,
          List.insertionSort dateDesc (insuranceRows db)⟩ := by
      unfold getInsuranceSales
      simp only [h, Bool.not_true, Bool.false_eq_true, if_false, hfilter,
        limitOr, List.drop_zero, List.take_of_length_le hle]
    exact ⟨_, hrun, hsort, rfl⟩

/-- C5 witness: a three-row collection — one exact cash name, one customer
name containing "BUPA ARABIA", one matching neither — split as the theorem
states. -/
theorem C5_customer_set_filters_witness :
    (∃ p : CashPayload,
      getAllCashDetailedSales (some ⟨"a1", "Admin"⟩) none none none none none
        [baseRow, { baseRow with CustomerName := "x Bupa Arabia y" },
         { baseRow with CustomerName := "Someone Else" }] = .ok p ∧
      p.data.Perm (cashRows
        [baseRow, { baseRow with CustomerName := "x Bupa Arabia y" },
         { baseRow with CustomerName := "Someone Else" }]) ∧
      p.total = (cashRows
        [baseRow, { baseRow with CustomerName := "x Bupa Arabia y" },
         { baseRow with CustomerName := "Someone Else" }]).length) ∧
    (∃ q : ListPayload,
      getInsuranceSales (some ⟨"a1", "Admin"⟩) none none none none none none
        [baseRow, { baseRow with CustomerName := "x Bupa Arabia y" },
         { baseRow with CustomerName := "Someone Else" }] = .ok q ∧
      q.data.Perm (insuranceRows
        [baseRow, { baseRow with CustomerName := "x Bupa Arabia y" },
         { baseRow with CustomerName := "Someone Else" }]) ∧
      q.total = (insuranceRows
        [baseRow, { baseRow with CustomerName := "x Bupa Arabia y" },
         { baseRow with CustomerName := "Someone Else" }]).length) :=
  C5_customer_set_filters (some ⟨"a1", "Admin"⟩)
    [baseRow, { baseRow with CustomerName := "x Bupa Arabia y" },
     { baseRow with CustomerName := "Someone Else" }] (by decide) (by decide)

/-! ## C6 — derived incentive value

The derivation guards on JavaScript truthiness (`if (req.body.Price &&
req.body.IncentivePercentage && ...)`), so a present-but-zero Price or
IncentivePercentage skips the derivation entirely, where the claim — which
only asks for the fields to be present — would store the product.  With
both values nonzero the claim's equations hold, for create, bulk create
and update alike. -/

/-- C6 counterexample: a body with Price present (0), IncentivePercentage
present (5) and no explicit incentive value.  The create/bulk derivation
leaves the incentive value absent — not `Price × IncentivePercentage = 0`
as the claim states. -/
theorem C6_zero_price_cex :
    (IncentiveItemT.SAP_Code ⟨some 1, some 0, some 5, none⟩).isSome = true ∧
    (deriveIncentiveValue ⟨some 1, some 0, some 5, none⟩).incentiveValue = none ∧
    (deriveIncentiveValue ⟨some 1, some 0, some 5, none⟩).incentiveValue ≠
      some ((0 : ℚ) * 5) := by
  refine ⟨rfl, ?_, ?_⟩ <;> simp [deriveIncentiveValue, truthy]

/-- C6 amended: with a nonzero Price and a nonzero IncentivePercentage
present and no truthy explicit incentive value, the stored incentive value
is `Price × IncentivePercentage` (the same derivation runs for single and
bulk creates); an update carrying a truthy Price or IncentivePercentage
re-derives the stored value from the effective price and percentage,
taking the unchanged field from the existing item, whenever both effective
values are nonzero.  (`16.55 × 0.032 = 0.5296` exactly over ℚ.) -/
theorem C6_incentive_derivation_amended (sap : Option Int) (iv : Option ℚ)
    (p q : ℚ) (hp : p ≠ 0) (hq : q ≠ 0) (ex : IncentiveItemT) :
    deriveIncentiveValue ⟨sap, some p, some q, none⟩ =
      ⟨sap, some p, some q, some (p * q)⟩ ∧
    (ex.IncentivePercentage = some q →
      (mergeIncentive ex
        (recomputeIncentiveValue ⟨sap, some p, none, iv⟩ (some ex))
        ).incentiveValue = some (p * q)) ∧
    (ex.Price = some p →
      (mergeIncentive ex
        (recomputeIncentiveValue ⟨sap, none, some q, iv⟩ (some ex))
        ).incentiveValue = some (p * q)) := by
  refine ⟨?_, ?_, ?_⟩
  · simp [deriveIncentiveValue, truthy, hp, hq]
  · intro hex
    simp [recomputeIncentiveValue, truthy, hp, hex, hq, mergeIncentive]
  · intro hex
    simp [recomputeIncentiveValue, truthy, hp, hex, hq, mergeIncentive]

/-- C6 witness: creating with Price 16.55 and IncentivePercentage 0.032
and no explicit value stores exactly 0.5296, and an update setting only
Price to 16.55 against an item whose percentage is 0.032 re-derives the
same value. -/
theorem C6_incentive_derivation_witness :
    deriveIncentiveValue ⟨some 1, some 16.55, some 0.032, none⟩ =
      ⟨some 1, some 16.55, some 0.032, some 0.5296⟩ ∧
    (mergeIncentive ⟨some 1, some 2, some 0.032, none⟩
      (recomputeIncentiveValue ⟨some 1, some 16.55, none, none⟩
        (some ⟨some 1, some 2, some 0.032, none⟩))).incentiveValue =
      some 0.5296 := by
  have h := C6_incentive_derivation_amended (some 1) none 16.55 0.032
    (by norm_num) (by norm_num) ⟨some 1, some 2, some 0.032, none⟩
  have heq : (16.55 : ℚ) * 0.032 = 0.5296 := by norm_num
  refine ⟨?_, ?_⟩
  · rw [h.1, heq]
  · rw [h.2.1 rfl, heq]

/-! ## C9 — averageSalesPerDay -/

/-- The double-group day count of the handler equals the number of
distinct days among the rows of the month: filtering the distinct
(year, month, day) triples down to one month counts exactly the distinct
days of that month's rows. -/
theorem daysWithInvoicesFor_eq (rows : List SaleRow) (y m : Nat) :
    daysWithInvoicesFor rows y m =
      (dedupFirst ((rows.filter (fun r =>
        r.InvoiceDate.year == y && r.InvoiceDate.month == m)).map
          (fun r => r.InvoiceDate.day))).length := by
  have hperm :
      ((dedupFirst (rows.map (fun r =>
        (r.InvoiceDate.year, r.InvoiceDate.month, r.InvoiceDate.day)))).filter
          (fun k => k.1 == y && k.2.1 == m)).Perm
      ((dedupFirst ((rows.filter (fun r =>
        r.InvoiceDate.year == y && r.InvoiceDate.month == m)).map
          (fun r => r.InvoiceDate.day))).map (fun d => (y, m, d))) := by
    apply (List.perm_ext_iff_of_nodup ?_ ?_).mpr
    · intro k
      simp only [List.mem_filter, mem_dedupFirst, List.mem_map,
        Bool.and_eq_true, beq_iff_eq]
      constructor
      · rintro ⟨⟨r, hr, rfl⟩, hy, hm⟩
        have hy' : r.InvoiceDate.year = y := hy
        have hm' : r.InvoiceDate.month = m := hm
        refine ⟨r.InvoiceDate.day, ⟨r, ⟨hr, ?_⟩, rfl⟩, ?_⟩
        · rw [hy', hm']
          simp
        · rw [hy', hm']
      · rintro ⟨d, ⟨r, ⟨hr, hcond⟩, rfl⟩, rfl⟩
        refine ⟨⟨r, hr, ?_⟩, rfl, rfl⟩
        rw [hcond.1, hcond.2]
    · exact (nodup_dedupFirst _).filter _
    · refine (nodup_dedupFirst _).map ?_
      intro a b hab
      simpa using congrArg (fun k => k.2.2) hab
  have := hperm.length_eq
  simpa [daysWithInvoicesFor] using this

/-- C9: in every by-month statistics response, each month's
averageSalesPerDay is its totalSales divided by its count of distinct
invoice-bearing days, and exactly 0 — not NaN, not an error — when that
count is 0; and the reported daysWithInvoices is that distinct-day
count. -/
theorem C9_average_sales_per_day (u : Option UserT) (bc : Option Int)
    (db : List SaleRow) (payload : MonthPayload)
    (h : getSalesByMonth u bc db = .ok payload) :
    ∀ s ∈ payload.statistics,
      s.daysWithInvoices =
        (dedupFirst (((db.filter (matchBranch bc)).filter (fun r =>
          r.InvoiceDate.year == s.year && r.InvoiceDate.month == s.month)).map
            (fun r => r.InvoiceDate.day))).length ∧
      (s.daysWithInvoices = 0 → s.averageSalesPerDay = 0) ∧
      (s.daysWithInvoices ≠ 0 →
        s.averageSalesPerDay = s.totalSales / (s.daysWithInvoices : ℚ)) := by
  unfold getSalesByMonth at h
  by_cases ha : adminCheck u
  · simp only [ha, Bool.not_true, Bool.false_eq_true, if_false,
      Resp.ok.injEq] at h
    subst h
    intro s hs
    obtain ⟨t, ht, rfl⟩ := List.mem_map.mp hs
    obtain ⟨g, _, rfl⟩ := List.mem_map.mp ht
    refine ⟨?_, ?_, ?_⟩
    · exact daysWithInvoicesFor_eq (db.filter (matchBranch bc)) g.key.1 g.key.2
    · intro h0
      have h0' : daysWithInvoicesFor (db.filter (matchBranch bc))
          g.key.1 g.key.2 = 0 := h0
      show (if daysWithInvoicesFor (db.filter (matchBranch bc))
            g.key.1 g.key.2 > 0 then
          g.totalSales /
            (daysWithInvoicesFor (db.filter (matchBranch bc)) g.key.1 g.key.2 : ℚ)
        else 0) = 0
      rw [h0']
      simp
    · intro hne
      have hpos : 0 < daysWithInvoicesFor (db.filter (matchBranch bc))
          g.key.1 g.key.2 := Nat.pos_of_ne_zero hne
      show (if daysWithInvoicesFor (db.filter (matchBranch bc))
            g.key.1 g.key.2 > 0 then
          g.totalSales /
            (daysWithInvoicesFor (db.filter (matchBranch bc)) g.key.1 g.key.2 : ℚ)
        else 0) =
        g.totalSales /
          (daysWithInvoicesFor (db.filter (matchBranch bc)) g.key.1 g.key.2 : ℚ)
      rw [if_pos hpos]
  · simp [ha] at h

/-- C9 witness: one row dated 2024-05-10 gives one month with one distinct
invoice-bearing day and averageSalesPerDay 1/1. -/
theorem C9_average_sales_per_day_witness :
    ∃ payload : MonthPayload,
      getSalesByMonth (some ⟨"a1", "Admin"⟩) none [baseRow] = .ok payload ∧
      ∀ s ∈ payload.statistics,
        (s.daysWithInvoices = 0 → s.averageSalesPerDay = 0) ∧
        (s.daysWithInvoices ≠ 0 →
          s.averageSalesPerDay = s.totalSales / (s.daysWithInvoices : ℚ)) := by
  refine ⟨_, rfl, ?_⟩
  intro s hs
  exact (C9_average_sales_per_day (some ⟨"a1", "Admin"⟩) none [baseRow] _
    rfl s hs).2

/-! ## C4 — response ordering

The claim says every non-chronological dimension is sorted by totalSales
descending, including the synthetic roll-up rows.  The code differs twice:
the branch dimension is sorted by branch code ascending (line 659), and
the invoice-type roll-up entries are appended after the sorted raw groups,
so the final list is not descending by totalSales. -/

/-- Mapping a percentage-wrapped sorted list keeps the totalSales order. -/
theorem sorted_withPercentage_totalSales (stats : List (GroupStat κ))
    (hs : List.Sorted descBySales stats) :
    List.Sorted (fun a b : ℚ => b ≤ a)
      ((withPercentage stats).map (fun q => q.totalSales)) := by
  unfold withPercentage
  rw [List.map_map]
  exact hs.map _ (fun a b hab => hab)

/-- C4 counterexample: with branch-1 sales of 10 and branch-2 sales of 50
the branch statistics come back ordered [10, 50] — ascending by branch
code, not descending by totalSales; and with raw groups Normal 100,
Exchange 5, Return −20 the invoice-type statistics come back [5, 80] —
the synthetic "Total Normal" row is appended after the smaller
pass-through row, so the list including roll-ups is not descending
either. -/
theorem C4_sort_order_cex :
    (∃ p : BranchPayload,
      getPharmaciesByBranchCode (some ⟨"a1", "Admin"⟩) []
        [{ baseRow with BranchCode := 1, ItemsNetPrice := 10 },
         { baseRow with BranchCode := 2, ItemsNetPrice := 50 }] = .ok p ∧
      p.statistics.map (fun s => s.totalSales) = [10, 50] ∧
      ¬ List.Sorted (fun a b : ℚ => b ≤ a)
        (p.statistics.map (fun s => s.totalSales))) ∧
    (∃ q : StatsPayload String,
      getSalesByInvoiceType (some ⟨"a1", "Admin"⟩) none none none
        [{ baseRow with ItemsNetPrice := 100 },
         { baseRow with InvoiceType := "Exchange", ItemsNetPrice := 5 },
         { baseRow with InvoiceType := "Return", ItemsNetPrice := -20 }] =
        .ok q ∧
      q.statistics.map (fun s => s.totalSales) = [5, 80] ∧
      ¬ List.Sorted (fun a b : ℚ => b ≤ a)
        (q.statistics.map (fun s => s.totalSales))) := by
  constructor
  · have hmap : ∀ p : BranchPayload,
        getPharmaciesByBranchCode (some ⟨"a1", "Admin"⟩) []
          [{ baseRow with BranchCode := 1, ItemsNetPrice := 10 },
           { baseRow with BranchCode := 2, ItemsNetPrice := 50 }] = .ok p →
        p.statistics.map (fun s => s.totalSales) = [10, 50] := by
      intro p hp
      have hadm : adminCheck (some ⟨"a1", "Admin"⟩) = true := by decide
      simp [getPharmaciesByBranchCode, hadm,
        dedupFirst, dedupGo, groupSums, sumBy,
        baseRow, List.insertionSort, List.orderedInsert, branchAsc,
        List.find?, List.filter, Resp.ok.injEq] at hp
      subst hp
      simp [dedupFirst, dedupGo, groupSums, sumBy, baseRow,
        List.insertionSort, List.orderedInsert, branchAsc, List.find?,
        List.filter]
    refine ⟨_, rfl, hmap _ rfl, ?_⟩
    rw [hmap _ rfl]
    intro hsorted
    rw [List.sorted_cons] at hsorted
    have := hsorted.1 50 (by simp)
    norm_num at this
  · have hmap : ∀ q : StatsPayload String,
        getSalesByInvoiceType (some ⟨"a1", "Admin"⟩) none none none
          [{ baseRow with ItemsNetPrice := 100 },
           { baseRow with InvoiceType := "Exchange", ItemsNetPrice := 5 },
           { baseRow with InvoiceType := "Return", ItemsNetPrice := -20 }] =
          .ok q →
        q.statistics.map (fun s => s.totalSales) = [5, 80] := by
      intro q hq
      have hadm : adminCheck (some ⟨"a1", "Admin"⟩) = true := by decide
      simp [getSalesByInvoiceType, hadm,
        lower_Normal, lower_Return, lower_Exchange,
        dedupFirst, dedupGo, groupSums, sumBy, baseRow, List.insertionSort,
        List.orderedInsert, descBySales, matchBranch, matchYearMonth,
        rollupInvoiceType, passThroughStats, rollupTotals, invoicePairs,
        rollupKeys, findType, totalEntry, optMetric, mkStatsPayload,
        withPercentage, pctWrap, List.find?, List.filter, List.filterMap,
        Resp.ok.injEq] at hq
      subst hq
      simp [lower_Normal, lower_Return, lower_Exchange, dedupFirst,
        dedupGo, groupSums, sumBy, baseRow, List.insertionSort,
        List.orderedInsert, descBySales, matchBranch, matchYearMonth,
        rollupInvoiceType, passThroughStats, rollupTotals, invoicePairs,
        rollupKeys, findType, totalEntry, optMetric, mkStatsPayload,
        withPercentage, pctWrap, List.find?, List.filter, List.filterMap]
      norm_num
    refine ⟨_, rfl, hmap _ rfl, ?_⟩
    rw [hmap _ rfl]
    intro hsorted
    rw [List.sorted_cons] at hsorted
    have := hsorted.1 80 (by simp)
    norm_num at this

/-- C4 amended: the sales-person statistics are sorted by totalSales
descending; the branch statistics are sorted by branch code ascending;
the invoice-type response is the totalSales-descending pass-through
groups followed by the synthetic `Total X` entries (the final list is not
re-sorted); the by-month and by-day statistics are sorted chronologically
ascending. -/
theorem C4_sort_order_amended (u : Option UserT) (bc : Option Int)
    (y m : Option Nat) (y0 m0 : Nat) (db : List SaleRow)
    (pharmacies : List PharmacyT) :
    (∀ p, getSalesBySalesName u bc y m db = .ok p →
      List.Sorted (fun a b : ℚ => b ≤ a)
        (p.statistics.map (fun s => s.totalSales))) ∧
    (∀ p, getPharmaciesByBranchCode u pharmacies db = .ok p →
      List.Sorted (fun a b : Int => a ≤ b)
        (p.statistics.map (fun s => s.branchCode))) ∧
    (∀ p, getSalesByInvoiceType u bc y m db = .ok p →
      ∃ A B, p.statistics = A ++ B ∧
        List.Sorted (fun a b : ℚ => b ≤ a) (A.map (fun s => s.totalSales)) ∧
        (∀ s ∈ A, toLowerCase s.key ∉ rollupKeys) ∧
        (∀ s ∈ B, s.key ∈ totalLabels)) ∧
    (∀ p, getSalesByMonth u bc db = .ok p →
      List.Sorted (fun a b : Nat × Nat =>
          a.1 < b.1 ∨ (a.1 = b.1 ∧ a.2 ≤ b.2))
        (p.statistics.map (fun s => (s.year, s.month)))) ∧
    (∀ p, getSalesByDay u bc y0 m0 db = .ok p →
      List.Sorted (fun a b : Nat × Nat × Nat =>
          a.1 < b.1 ∨ (a.1 = b.1 ∧
            (a.2.1 < b.2.1 ∨ (a.2.1 = b.2.1 ∧ a.2.2 ≤ b.2.2))))
        (p.statistics.map (fun s => s.key))) := by
  by_cases ha : adminCheck u
  case neg =>
    refine ⟨?_, ?_, ?_, ?_, ?_⟩ <;> intro p h <;>
      simp [getSalesBySalesName, getPharmaciesByBranchCode,
        getSalesByInvoiceType, getSalesByMonth, getSalesByDay, ha] at h
  case pos =>
    refine ⟨?_, ?_, ?_, ?_, ?_⟩ <;> intro p h
    · unfold getSalesBySalesName at h
      simp only [ha, Bool.not_true, Bool.false_eq_true, if_false,
        Resp.ok.injEq] at h
      subst h
      exact sorted_withPercentage_totalSales _
        (List.sorted_insertionSort descBySales _)
    · unfold getPharmaciesByBranchCode at h
      simp only [ha, Bool.not_true, Bool.false_eq_true, if_false,
        Resp.ok.injEq] at h
      subst h
      simp only [List.map_map]
      exact (List.sorted_insertionSort branchAsc _).map _ (fun a b hab => hab)
    · unfold getSalesByInvoiceType at h
      simp only [ha, Bool.not_true, Bool.false_eq_true, if_false,
        Resp.ok.injEq] at h
      subst h
      refine ⟨(passThroughStats (List.insertionSort descBySales
          (groupSums (fun r => r.InvoiceType) (db.filter (fun r =>
            matchBranch bc r && matchYearMonth y m r))))).map
          (pctWrap (sumBy (fun s => s.totalSales)
            (rollupInvoiceType (List.insertionSort descBySales
              (groupSums (fun r => r.InvoiceType) (db.filter (fun r =>
                matchBranch bc r && matchYearMonth y m r))))))),
        (rollupTotals (List.insertionSort descBySales
          (groupSums (fun r => r.InvoiceType) (db.filter (fun r =>
            matchBranch bc r && matchYearMonth y m r))))).map
          (pctWrap (sumBy (fun s => s.totalSales)
            (rollupInvoiceType (List.insertionSort descBySales
              (groupSums (fun r => r.InvoiceType) (db.filter (fun r =>
                matchBranch bc r && matchYearMonth y m r))))))),
        ?_, ?_, ?_, ?_⟩
      · exact List.map_append _ _ _
      · simp only [List.map_map]
        refine List.Pairwise.map _ (fun a b hab => hab) ?_
        exact (List.sorted_insertionSort descBySales _).filter _
      · intro s hs
        obtain ⟨t, ht, rfl⟩ := List.mem_map.mp hs
        have hcond := (List.mem_filter.mp ht).2
        intro hmem
        have helem : rollupKeys.contains (toLowerCase t.key) = true :=
          List.elem_iff.mpr hmem
        rw [helem] at hcond
        simp at hcond
      · intro s hs
        obtain ⟨t, ht, rfl⟩ := List.mem_map.mp hs
        obtain ⟨pr, hpr, hsome⟩ := List.mem_filterMap.mp ht
        by_cases hcond : (findType (List.insertionSort descBySales
            (groupSums (fun r => r.InvoiceType)
              (db.filter (fun r =>
                matchBranch bc r && matchYearMonth y m r)))) pr.1).isSome ||
            (findType (List.insertionSort descBySales
              (groupSums (fun r => r.InvoiceType)
                (db.filter (fun r =>
                  matchBranch bc r && matchYearMonth y m r)))) pr.2.1).isSome
        · rw [if_pos hcond] at hsome
          have := Option.some.inj hsome
          subst this
          exact List.mem_map_of_mem _ hpr
        · rw [if_neg hcond] at hsome
          exact absurd hsome (by simp)
    · unfold getSalesByMonth at h
      simp only [ha, Bool.not_true, Bool.false_eq_true, if_false,
        Resp.ok.injEq] at h
      subst h
      simp only [List.map_map]
      refine List.Pairwise.map _ ?_ (List.sorted_insertionSort monthAsc _)
      intro a b hab
      exact hab
    · unfold getSalesByDay at h
      simp only [ha, Bool.not_true, Bool.false_eq_true, if_false,
        Resp.ok.injEq] at h
      subst h
      simp only [mkStatsPayload, withPercentage, List.map_map]
      refine List.Pairwise.map _ ?_ (List.sorted_insertionSort dayAsc _)
      intro a b hab
      exact hab

/-- C4 witness: concrete admin requests exhibiting the amended orders. -/
theorem C4_sort_order_witness :
    (∃ p, getSalesBySalesName (some ⟨"a1", "Admin"⟩) none none none
        [baseRow] = .ok p ∧
      List.Sorted (fun a b : ℚ => b ≤ a)
        (p.statistics.map (fun s => s.totalSales))) ∧
    (∃ p, getSalesByMonth (some ⟨"a1", "Admin"⟩) none [baseRow] = .ok p ∧
      List.Sorted (fun a b : Nat × Nat =>
          a.1 < b.1 ∨ (a.1 = b.1 ∧ a.2 ≤ b.2))
        (p.statistics.map (fun s => (s.year, s.month)))) := by
  constructor
  · exact ⟨_, rfl, (C4_sort_order_amended (some ⟨"a1", "Admin"⟩) none none
      none 2024 5 [baseRow] []).1 _ rfl⟩
  · exact ⟨_, rfl, (C4_sort_order_amended (some ⟨"a1", "Admin"⟩) none none
      none 2024 5 [baseRow] []).2.2.2.1 _ rfl⟩

/-! ## C8 — percentages

The percentage branch tests `grandTotalSales > 0`, not `≠ 0`; the schema
(part_013) bounds `ItemsNetPrice` below by 0 at every write, so every
group sum — and the grand total — is non-negative and the two tests
agree.  Under that schema invariant each percentage is the group's share
of the grand total and the shares sum to exactly 100 over ℚ (the float
computation is within rounding of this), or are all 0 when the grand
total is 0. -/

theorem groupSums_totalSales_nonneg [DecidableEq κ] (key : SaleRow → κ)
    (rows : List SaleRow) (hr : ∀ r ∈ rows, 0 ≤ r.ItemsNetPrice) :
    ∀ g ∈ groupSums key rows, 0 ≤ g.totalSales := by
  intro g hg
  obtain ⟨k, -, rfl⟩ := List.mem_map.mp hg
  apply List.sum_nonneg
  intro x hx
  obtain ⟨r, hrmem, rfl⟩ := List.mem_map.mp hx
  exact hr r (List.mem_filter.mp hrmem).1

theorem optMetric_totalSales_nonneg (stats : List (GroupStat String))
    (h : ∀ s ∈ stats, 0 ≤ s.totalSales) (k : String) :
    0 ≤ optMetric (findType stats k) (fun s => s.totalSales) := by
  unfold optMetric findType
  cases hf : stats.find? (fun s => !(s.key == "") && (toLowerCase s.key == k)) with
  | none => simp
  | some s => simpa using h s (List.mem_of_find?_eq_some hf)

theorem rollup_totalSales_nonneg (stats : List (GroupStat String))
    (h : ∀ s ∈ stats, 0 ≤ s.totalSales) :
    ∀ t ∈ rollupInvoiceType stats, 0 ≤ t.totalSales := by
  intro t ht
  rcases List.mem_append.mp ht with h1 | h2
  · exact h t (List.mem_filter.mp h1).1
  · obtain ⟨pr, _, hsome⟩ := List.mem_filterMap.mp h2
    by_cases hcond : (findType stats pr.1).isSome ||
        (findType stats pr.2.1).isSome
    · rw [if_pos hcond] at hsome
      obtain rfl := Option.some.inj hsome
      exact add_nonneg (optMetric_totalSales_nonneg stats h _)
        (optMetric_totalSales_nonneg stats h _)
    · rw [if_neg hcond] at hsome
      exact absurd hsome (by simp)

/-- The percentage semantics over a group list with non-negative
totalSales values: all zero when the grand total is zero, otherwise each
group's share of the grand total, with the shares summing to exactly
100. -/
theorem withPercentage_spec (stats : List (GroupStat κ))
    (hnn : ∀ s ∈ stats, 0 ≤ s.totalSales) :
    (sumBy (fun s => s.totalSales) stats = 0 →
      ∀ q ∈ withPercentage stats, q.percentage = 0) ∧
    (sumBy (fun s => s.totalSales) stats ≠ 0 →
      (∀ q ∈ withPercentage stats,
        q.percentage = q.totalSales / sumBy (fun s => s.totalSales) stats * 100) ∧
      ((withPercentage stats).map (fun q => q.percentage)).sum = 100) := by
  have hG0 : 0 ≤ sumBy (fun s => s.totalSales) stats := by
    apply List.sum_nonneg
    intro x hx
    obtain ⟨s, hs, rfl⟩ := List.mem_map.mp hx
    exact hnn s hs
  constructor
  · intro hzero q hq
    obtain ⟨s, -, rfl⟩ := List.mem_map.mp hq
    show (if sumBy (fun s => s.totalSales) stats > 0 then _ else 0) = 0
    rw [if_neg]
    rw [hzero]
    exact lt_irrefl 0
  · intro hne
    have hpos : 0 < sumBy (fun s => s.totalSales) stats :=
      lt_of_le_of_ne hG0 (Ne.symm hne)
    constructor
    · intro q hq
      obtain ⟨s, -, rfl⟩ := List.mem_map.mp hq
      show (if sumBy (fun s => s.totalSales) stats > 0 then _ else _) = _
      rw [if_pos hpos]
      rfl
    · unfold withPercentage
      rw [List.map_map]
      have hfun : ((fun q : PctStat κ => q.percentage) ∘
          pctWrap (sumBy (fun s => s.totalSales) stats)) = (fun s =>
            s.totalSales * (100 / sumBy (fun s => s.totalSales) stats)) := by
        funext s
        show (if sumBy (fun s => s.totalSales) stats > 0 then _ else _) = _
        rw [if_pos hpos]
        ring
      rw [hfun, List.sum_map_mul_right]
      show sumBy (fun s => s.totalSales) stats *
        (100 / sumBy (fun s => s.totalSales) stats) = 100
      field_simp

/-- C8: when every row has a non-negative ItemsNetPrice (the schema
invariant), the sales-by-name and sales-by-invoice-type responses give
each group percentage = totalSales / grand total × 100 whenever the grand
total is nonzero, percentage 0 everywhere when it is zero, and the
percentages of one response sum to exactly 100 (or are all 0). -/
theorem C8_percentages (u : Option UserT) (bc : Option Int) (y m : Option Nat)
    (db : List SaleRow) (hrow : ∀ r ∈ db, 0 ≤ r.ItemsNetPrice) :
    (∀ p, getSalesBySalesName u bc y m db = .ok p →
      (p.totalSales = 0 → ∀ q ∈ p.statistics, q.percentage = 0) ∧
      (p.totalSales ≠ 0 →
        (∀ q ∈ p.statistics,
          q.percentage = q.totalSales / p.totalSales * 100) ∧
        (p.statistics.map (fun q => q.percentage)).sum = 100)) ∧
    (∀ p, getSalesByInvoiceType u bc y m db = .ok p →
      (p.totalSales = 0 → ∀ q ∈ p.statistics, q.percentage = 0) ∧
      (p.totalSales ≠ 0 →
        (∀ q ∈ p.statistics,
          q.percentage = q.totalSales / p.totalSales * 100) ∧
        (p.statistics.map (fun q => q.percentage)).sum = 100)) := by
  have hfil : ∀ r ∈ db.filter (fun r =>
      matchBranch bc r && matchYearMonth y m r), 0 ≤ r.ItemsNetPrice :=
    fun r hr => hrow r (List.mem_filter.mp hr).1
  constructor
  · intro p h
    unfold getSalesBySalesName at h
    by_cases ha : adminCheck u
    · simp only [ha, Bool.not_true, Bool.false_eq_true, if_false,
        Resp.ok.injEq] at h
      subst h
      apply withPercentage_spec
      intro s hs
      exact groupSums_totalSales_nonneg _ _ hfil s
        ((List.perm_insertionSort descBySales _).mem_iff.mp hs)
    · simp [ha] at h
  · intro p h
    unfold getSalesByInvoiceType at h
    by_cases ha : adminCheck u
    · simp only [ha, Bool.not_true, Bool.false_eq_true, if_false,
        Resp.ok.injEq] at h
      subst h
      apply withPercentage_spec
      apply rollup_totalSales_nonneg
      intro s hs
      exact groupSums_totalSales_nonneg _ _ hfil s
        ((List.perm_insertionSort descBySales _).mem_iff.mp hs)
    · simp [ha] at h

/-- C8 witness: a single-row collection with ItemsNetPrice 1. -/
theorem C8_percentages_witness :
    ∃ p, getSalesBySalesName (some ⟨"a1", "Admin"⟩) none none none
      [baseRow] = .ok p ∧
      ((p.totalSales = 0 → ∀ q ∈ p.statistics, q.percentage = 0) ∧
      (p.totalSales ≠ 0 →
        (∀ q ∈ p.statistics,
          q.percentage = q.totalSales / p.totalSales * 100) ∧
        (p.statistics.map (fun q => q.percentage)).sum = 100)) :=
  ⟨_, rfl, (C8_percentages (some ⟨"a1", "Admin"⟩) none none none [baseRow]
    (by intro r hr; simp at hr; subst hr; norm_num [baseRow])).1 _ rfl⟩

/-! ## C2 — the invoice-type roll-up -/

/-- The spec-side value of one pair member: the sum of metric `f` over
the raw groups whose lowercased type is `k` (0 when the member is
absent). -/
def pairMemberSum (stats : List (GroupStat String)) (k : String)
    (f : GroupStat String → ℚ) : ℚ :=
  ((stats.filter (fun s => toLowerCase s.key == k)).map f).sum

/-- A pair member is found iff some raw group carries it
(case-insensitively; a member key is never the empty string). -/
theorem findType_isSome_iff (stats : List (GroupStat String)) (k : String)
    (hk : k ≠ "") :
    (findType stats k).isSome = true ↔
      ∃ s ∈ stats, toLowerCase s.key = k := by
  unfold findType
  rw [List.find?_isSome]
  constructor
  · rintro ⟨s, hs, hpred⟩
    simp only [Bool.and_eq_true, beq_iff_eq] at hpred
    exact ⟨s, hs, hpred.2⟩
  · rintro ⟨s, hs, hlow⟩
    refine ⟨s, hs, ?_⟩
    have hkey : s.key ≠ "" := by
      intro h0
      rw [h0] at hlow
      exact hk (hlow.symm ▸ rfl)
    simp [hkey, hlow]

/-- Under case-insensitive distinctness of the raw group keys, the
`find`-based member metric of the roll-up equals the spec-side member
sum. -/
theorem optMetric_eq_pairMemberSum (stats : List (GroupStat String))
    (hdist : stats.Pairwise (fun a b => toLowerCase a.key ≠ toLowerCase b.key))
    (k : String) (hk : k ≠ "") (f : GroupStat String → ℚ) :
    optMetric (findType stats k) f = pairMemberSum stats k f := by
  induction stats with
  | nil => simp [optMetric, findType, pairMemberSum]
  | cons s rest ih =>
    have hdist' := (List.pairwise_cons.mp hdist).2
    have hhead := (List.pairwise_cons.mp hdist).1
    by_cases hmatch : toLowerCase s.key = k
    · have hkey : s.key ≠ "" := by
        intro h0
        rw [h0] at hmatch
        exact hk (hmatch.symm ▸ rfl)
      have hfind : findType (s :: rest) k = some s := by
        unfold findType
        rw [List.find?_cons_of_pos]
        simp [hkey, hmatch]
      have hrest : rest.filter (fun t => toLowerCase t.key == k) = [] := by
        rw [List.filter_eq_nil_iff]
        intro t ht
        simp only [beq_iff_eq]
        intro hcontra
        exact hhead t ht (hmatch.trans hcontra.symm)
      unfold pairMemberSum
      rw [List.filter_cons_of_pos (by simp [hmatch])]
      rw [hrest]
      simp [optMetric, hfind]
    · have hfind : findType (s :: rest) k = findType rest k := by
        unfold findType
        rw [List.find?_cons_of_neg]
        simp [hmatch]
      unfold pairMemberSum
      rw [List.filter_cons_of_neg (by simp [hmatch])]
      rw [hfind]
      exact ih hdist'

/-- Counting one label among the appended roll-up entries: one per pair
that is present and carries that label. -/
theorem countP_rollupTotals (stats : List (GroupStat String)) (label : String) :
    ∀ ps : List (String × String × String),
    (ps.filterMap (fun p =>
      if (findType stats p.1).isSome || (findType stats p.2.1).isSome
      then some (totalEntry stats p.1 p.2.1 p.2.2) else none)).countP
        (fun t => t.key == label) =
    (ps.filter (fun p =>
      ((findType stats p.1).isSome || (findType stats p.2.1).isSome) &&
        (p.2.2 == label))).length := by
  intro ps
  induction ps with
  | nil => simp
  | cons p rest ih =>
    by_cases hg : (findType stats p.1).isSome || (findType stats p.2.1).isSome
    · rw [List.filterMap_cons, if_pos hg, List.countP_cons, ih]
      by_cases hl : p.2.2 = label
      · rw [List.filter_cons_of_pos (by simp [hg, hl]), List.length_cons]
        have hpred : ((totalEntry stats p.1 p.2.1 p.2.2).key == label) = true := by
          simp [totalEntry, hl]
        rw [hpred, if_pos rfl]
      · rw [List.filter_cons_of_neg (by simp [hl])]
        have hpred : ((totalEntry stats p.1 p.2.1 p.2.2).key == label) = false := by
          simp [totalEntry, hl]
        rw [hpred]
        simp
    · rw [List.filterMap_cons, if_neg hg]
      rw [List.filter_cons_of_neg (by simp [hg])]
      exact ih

/-- Every pair's two member keys are among the twelve filtered keys, are
non-empty, and its label is one of the six synthetic labels. -/
theorem invoicePairs_facts : ∀ pr ∈ invoicePairs,
    pr.1 ∈ rollupKeys ∧ pr.2.1 ∈ rollupKeys ∧ pr.1 ≠ "" ∧ pr.2.1 ≠ "" ∧
    pr.2.2 ∈ totalLabels := by decide

/-- No synthetic label lowercases to a member key. -/
theorem totalLabels_lower_not_keys :
    ∀ l ∈ totalLabels, toLowerCase l ∉ rollupKeys := by decide

/-- C2: assuming the raw groups have case-insensitively distinct types
and none is already named like a synthetic label (raw invoice types never
are), then for each of the six pairs, whenever at least one member is
present among the raw groups: neither member appears in the rolled-up
output, exactly one row with the pair's `Total X` label appears, and its
four metrics are the sums of the pair's member values (absent members
contributing zero); and every group outside the twelve member keys passes
through to the output unmodified. -/
theorem C2_invoice_type_rollup (stats : List (GroupStat String))
    (hdist : stats.Pairwise (fun a b => toLowerCase a.key ≠ toLowerCase b.key))
    (hlab : ∀ s ∈ stats, s.key ∉ totalLabels) :
    (∀ pr ∈ invoicePairs,
      (∃ s ∈ stats, toLowerCase s.key = pr.1 ∨ toLowerCase s.key = pr.2.1) →
      ((∀ t ∈ rollupInvoiceType stats,
          toLowerCase t.key ≠ pr.1 ∧ toLowerCase t.key ≠ pr.2.1) ∧
       (rollupInvoiceType stats).countP (fun t => t.key == pr.2.2) = 1 ∧
       (∃ t ∈ rollupInvoiceType stats, t.key = pr.2.2 ∧
          t.totalSales =
            pairMemberSum stats pr.1 (fun s => s.totalSales) +
            pairMemberSum stats pr.2.1 (fun s => s.totalSales) ∧
          t.totalTransactions =
            pairMemberSum stats pr.1 (fun s => s.totalTransactions) +
            pairMemberSum stats pr.2.1 (fun s => s.totalTransactions) ∧
          t.totalQuantity =
            pairMemberSum stats pr.1 (fun s => s.totalQuantity) +
            pairMemberSum stats pr.2.1 (fun s => s.totalQuantity) ∧
          t.totalNetTotal =
            pairMemberSum stats pr.1 (fun s => s.totalNetTotal) +
            pairMemberSum stats pr.2.1 (fun s => s.totalNetTotal)))) ∧
    (∀ s ∈ stats, toLowerCase s.key ∉ rollupKeys →
      s ∈ rollupInvoiceType stats) := by
  constructor
  · intro pr hpr hex
    obtain ⟨hk1, hk2, hne1, hne2, hlabmem⟩ := invoicePairs_facts pr hpr
    have hguard : ((findType stats pr.1).isSome ||
        (findType stats pr.2.1).isSome) = true := by
      rw [Bool.or_eq_true]
      obtain ⟨s0, hs0, hor⟩ := hex
      rcases hor with h | h
      · exact Or.inl ((findType_isSome_iff stats pr.1 hne1).mpr ⟨s0, hs0, h⟩)
      · exact Or.inr ((findType_isSome_iff stats pr.2.1 hne2).mpr ⟨s0, hs0, h⟩)
    refine ⟨?_, ?_, ?_⟩
    · intro t ht
      rcases List.mem_append.mp ht with hA | hB
      · have hcond := (List.mem_filter.mp hA).2
        have hnotin : toLowerCase t.key ∉ rollupKeys := by
          intro hmem
          have helem : rollupKeys.contains (toLowerCase t.key) = true :=
            List.elem_iff.mpr hmem
          rw [helem] at hcond
          simp at hcond
        exact ⟨fun h => hnotin (h ▸ hk1), fun h => hnotin (h ▸ hk2)⟩
      · obtain ⟨pr', hpr', hsome⟩ := List.mem_filterMap.mp hB
        by_cases hg : (findType stats pr'.1).isSome ||
            (findType stats pr'.2.1).isSome
        · rw [if_pos hg] at hsome
          obtain rfl := Option.some.inj hsome
          have hlab' := (invoicePairs_facts pr' hpr').2.2.2.2
          have hnk := totalLabels_lower_not_keys _ hlab'
          exact ⟨fun h => hnk (h ▸ hk1), fun h => hnk (h ▸ hk2)⟩
        · rw [if_neg hg] at hsome
          exact absurd hsome (by simp)
    · rw [rollupInvoiceType, List.countP_append]
      have h1 : (passThroughStats stats).countP
          (fun t => t.key == pr.2.2) = 0 := by
        rw [List.countP_eq_zero]
        intro t ht
        simp only [beq_iff_eq]
        intro hcontra
        exact hlab t (List.mem_filter.mp ht).1 (hcontra ▸ hlabmem)
      rw [h1, Nat.zero_add, rollupTotals, countP_rollupTotals]
      have hpr6 : pr = ("insurance", "returninsurance", "Total insurance") ∨
          pr = ("online", "returnonline", "Total Online") ∨
          pr = ("cashcustomer", "returncashcustomer", "Total CashCustomer") ∨
          pr = ("creditcustomer", "returncreditcustomer",
            "Total CreditCustomer") ∨
          pr = ("wasfaty", "returnwasfaty", "Total Wasfaty") ∨
          pr = ("normal", "return", "Total Normal") := by
        simpa [invoicePairs] using hpr
      rcases hpr6 with rfl | rfl | rfl | rfl | rfl | rfl <;>
        simp [invoicePairs, hguard]
    · refine ⟨totalEntry stats pr.1 pr.2.1 pr.2.2,
        List.mem_append.mpr (Or.inr (List.mem_filterMap.mpr
          ⟨pr, hpr, by rw [if_pos hguard]⟩)), rfl, ?_, ?_, ?_, ?_⟩ <;>
        · show optMetric (findType stats _) _ + optMetric (findType stats _) _ = _
          rw [optMetric_eq_pairMemberSum stats hdist _ hne1,
            optMetric_eq_pairMemberSum stats hdist _ hne2]
  · intro s hs hkey
    refine List.mem_append.mpr (Or.inl (List.mem_filter.mpr ⟨hs, ?_⟩))
    rw [Bool.not_eq_eq_eq_not, Bool.not_true]
    rw [← Bool.not_eq_true]
    intro hcontra
    exact hkey (List.elem_iff.mp hcontra)

/-- C2 witness: the claim's own example — raw groups Normal 100 and
Return −20 roll up to no raw Normal/Return entry and exactly one
"Total Normal" entry with totalSales 80. -/
theorem C2_invoice_type_rollup_witness :
    (∀ t ∈ rollupInvoiceType
        [⟨"Normal", 100, 1, 2, 100⟩, ⟨"Return", -20, 1, 1, -20⟩],
      toLowerCase t.key ≠ "normal" ∧ toLowerCase t.key ≠ "return") ∧
    (rollupInvoiceType
        [⟨"Normal", 100, 1, 2, 100⟩, ⟨"Return", -20, 1, 1, -20⟩]).countP
      (fun t => t.key == "Total Normal") = 1 ∧
    (∃ t ∈ rollupInvoiceType
        [⟨"Normal", 100, 1, 2, 100⟩, ⟨"Return", -20, 1, 1, -20⟩],
      t.key = "Total Normal" ∧ t.totalSales = 80) := by
  have h := (C2_invoice_type_rollup
    [⟨"Normal", 100, 1, 2, 100⟩, ⟨"Return", -20, 1, 1, -20⟩]
    (by decide) (by decide)).1
    ("normal", "return", "Total Normal") (by decide) (by decide)
  obtain ⟨hno, hcount, t, hmem, hkeyt, hsales, -, -, -⟩ := h
  refine ⟨fun t ht => hno t ht, hcount, t, hmem, hkeyt, ?_⟩
  rw [hsales]
  have h1 : pairMemberSum
      [⟨"Normal", 100, 1, 2, 100⟩, ⟨"Return", -20, 1, 1, -20⟩] "normal"
      (fun s => s.totalSales) = 100 := by
    simp [pairMemberSum, lower_Normal, lower_Return]
  have h2 : pairMemberSum
      [⟨"Normal", 100, 1, 2, 100⟩, ⟨"Return", -20, 1, 1, -20⟩] "return"
      (fun s => s.totalSales) = -20 := by
    simp [pairMemberSum, lower_Normal, lower_Return]
  rw [h1, h2]
  norm_num

/-! ## C7 — unordered bulk insert -/

theorem insertManyGo_errs_carry (keyOf : α → Option Int) :
    ∀ (items st : List α) (errs : List WriteError) (i : Nat),
    (insertManyGo keyOf st errs i items).2 =
      errs ++ (insertManyGo keyOf st [] i items).2 := by
  intro items
  induction items with
  | nil => intro st errs i; simp [insertManyGo]
  | cons item rest ih =>
    intro st errs i
    unfold insertManyGo
    cases hk : keyOf item with
    | some k =>
      dsimp only
      by_cases hc : (st.filterMap keyOf).contains k
      · rw [if_pos hc, if_pos hc]
        have h1 := ih st (errs ++ [WriteError.mk i "E11000 duplicate key error"])
          (i + 1)
        have h2 := ih st ([] ++ [WriteError.mk i "E11000 duplicate key error"])
          (i + 1)
        rw [h1, h2]
        simp
      · rw [if_neg hc, if_neg hc]
        exact ih _ errs _
    | none => exact ih _ errs _

theorem insertManyGo_store_mono (keyOf : α → Option Int) :
    ∀ (items st : List α) (errs : List WriteError) (i : Nat) (x : α),
    x ∈ st → x ∈ (insertManyGo keyOf st errs i items).1 := by
  intro items
  induction items with
  | nil => intro st errs i x hx; simpa [insertManyGo] using hx
  | cons item rest ih =>
    intro st errs i x hx
    unfold insertManyGo
    cases hk : keyOf item with
    | some k =>
      dsimp only
      by_cases hc : (st.filterMap keyOf).contains k
      · rw [if_pos hc]
        exact ih _ _ _ _ hx
      · rw [if_neg hc]
        exact ih _ _ _ _ (List.mem_append.mpr (Or.inl hx))
    | none => exact ih _ _ _ _ (List.mem_append.mpr (Or.inl hx))

theorem insertManyGo_length (keyOf : α → Option Int) :
    ∀ (items st : List α) (errs : List WriteError) (i : Nat),
    (insertManyGo keyOf st errs i items).1.length +
      (insertManyGo keyOf st errs i items).2.length =
      st.length + errs.length + items.length := by
  intro items
  induction items with
  | nil => intro st errs i; simp [insertManyGo]
  | cons item rest ih =>
    intro st errs i
    unfold insertManyGo
    cases hk : keyOf item with
    | some k =>
      dsimp only
      by_cases hc : (st.filterMap keyOf).contains k
      · rw [if_pos hc, ih]
        simp
        omega
      · rw [if_neg hc, ih]
        simp
        omega
    | none =>
      rw [ih]
      simp
      omega

theorem insertManyGo_mem_or_err (keyOf : α → Option Int) :
    ∀ (items st : List α) (errs : List WriteError) (i j : Nat)
      (hj : j < items.length),
    items.get ⟨j, hj⟩ ∈ (insertManyGo keyOf st errs i items).1 ∨
      ∃ e ∈ (insertManyGo keyOf st errs i items).2, e.index = i + j := by
  intro items
  induction items with
  | nil => intro st errs i j hj; exact absurd hj (by simp)
  | cons item rest ih =>
    intro st errs i j hj
    unfold insertManyGo
    cases hk : keyOf item with
    | some k =>
      dsimp only
      by_cases hc : (st.filterMap keyOf).contains k
      · rw [if_pos hc]
        cases j with
        | zero =>
          refine Or.inr ⟨⟨i, "E11000 duplicate key error"⟩, ?_, by simp⟩
          rw [insertManyGo_errs_carry]
          exact List.mem_append.mpr (Or.inl (by simp))
        | succ j' =>
          rcases ih st (errs ++ [⟨i, "E11000 duplicate key error"⟩]) (i + 1)
              j' (Nat.lt_of_succ_lt_succ hj) with h | ⟨e, he, hei⟩
          · exact Or.inl h
          · exact Or.inr ⟨e, he, by omega⟩
      · rw [if_neg hc]
        cases j with
        | zero =>
          exact Or.inl (insertManyGo_store_mono keyOf rest (st ++ [item])
            errs (i + 1) _ (by simp))
        | succ j' =>
          rcases ih (st ++ [item]) errs (i + 1) j'
              (Nat.lt_of_succ_lt_succ hj) with h | ⟨e, he, hei⟩
          · exact Or.inl h
          · exact Or.inr ⟨e, he, by omega⟩
    | none =>
      cases j with
      | zero =>
        exact Or.inl (insertManyGo_store_mono keyOf rest (st ++ [item])
          errs (i + 1) _ (by simp))
      | succ j' =>
        rcases ih (st ++ [item]) errs (i + 1) j'
            (Nat.lt_of_succ_lt_succ hj) with h | ⟨e, he, hei⟩
        · exact Or.inl h
        · exact Or.inr ⟨e, he, by omega⟩

/-- A collection without a unique index (constant `none` key) accepts
every item and records no write error. -/
theorem insertManyGo_noKey :
    ∀ (sales st : List α) (errs : List WriteError) (i : Nat),
    insertManyGo (fun _ => (none : Option Int)) st errs i sales =
      (st ++ sales, errs) := by
  intro sales
  induction sales with
  | nil => intro st errs i; simp [insertManyGo]
  | cons x rest ih =>
    intro st errs i
    unfold insertManyGo
    dsimp only
    rw [ih]
    simp

/-- C7: with `ordered: false`, the incentive bulk endpoint persists every
item whose unique SAP_Code does not collide and reports every colliding
item by its index — the response is 201 with the processed items when no
error occurred and the 400 `writeErrors` list otherwise, the final store
accounts for every item (persisted + reported = submitted), and each item
is either persisted or reported under its own index; the detailed-sales
bulk endpoint has no unique index, so every submitted row persists and
the response is always 201. -/
theorem C7_bulk_insert (u : Option UserT) (store : List IncentiveItemT)
    (items : List IncentiveItemT) (dstore sales : List SaleRow)
    (hadmin : adminCheck u = true) (hne : items ≠ [])
    (hne2 : sales ≠ []) :
    (bulkCreateIncentiveItems u store (some items) =
      ((insertManyUnordered (fun x => x.SAP_Code) store
          (items.map deriveIncentiveValue)).1,
        if (insertManyUnordered (fun x => x.SAP_Code) store
            (items.map deriveIncentiveValue)).2.isEmpty
        then .ok (items.map deriveIncentiveValue)
        else .failedItems (insertManyUnordered (fun x => x.SAP_Code) store
          (items.map deriveIncentiveValue)).2) ∧
      (insertManyUnordered (fun x => x.SAP_Code) store
          (items.map deriveIncentiveValue)).1.length +
        (insertManyUnordered (fun x => x.SAP_Code) store
          (items.map deriveIncentiveValue)).2.length =
        store.length + items.length ∧
      (∀ j (hj : j < (items.map deriveIncentiveValue).length),
        (items.map deriveIncentiveValue).get ⟨j, hj⟩ ∈
          (insertManyUnordered (fun x => x.SAP_Code) store
            (items.map deriveIncentiveValue)).1 ∨
        ∃ e ∈ (insertManyUnordered (fun x => x.SAP_Code) store
            (items.map deriveIncentiveValue)).2, e.index = j)) ∧
    createBulkDetailedSales u dstore (some sales) =
      (dstore ++ sales, .ok sales) := by
  refine ⟨⟨?_, ?_, ?_⟩, ?_⟩
  · unfold bulkCreateIncentiveItems
    rw [hadmin]
    simp only [Bool.not_true, Bool.false_eq_true, if_false]
    rw [if_neg (by simpa [List.isEmpty_iff] using hne)]
    by_cases hres : (insertManyUnordered (fun x : IncentiveItemT => x.SAP_Code)
        store (items.map deriveIncentiveValue)).2.isEmpty
    · simp [hres]
    · simp [hres]
  · have := insertManyGo_length (fun x : IncentiveItemT => x.SAP_Code)
      (items.map deriveIncentiveValue) store [] 0
    simpa [insertManyUnordered] using this
  · intro j hj
    have := insertManyGo_mem_or_err (fun x : IncentiveItemT => x.SAP_Code)
      (items.map deriveIncentiveValue) store [] 0 j hj
    simpa [insertManyUnordered] using this
  · unfold createBulkDetailedSales
    rw [hadmin]
    simp only [Bool.not_true, Bool.false_eq_true, if_false]
    rw [if_neg (by simpa [List.isEmpty_iff] using hne2)]
    rw [show insertManyUnordered (fun _ => (none : Option Int)) dstore sales =
      (dstore ++ sales, []) from insertManyGo_noKey sales dstore [] 0]
    simp

/-- C7 witness: three incentive items of which the second collides with a
stored SAP_Code — two persist and exactly the index-1 item is reported —
and a two-row detailed-sales bulk insert that persists both rows. -/
theorem C7_bulk_insert_witness :
    (bulkCreateIncentiveItems (some ⟨"a1", "Admin"⟩)
      [⟨some 2, some 5, none, none⟩]
      (some [⟨some 1, some 1, none, none⟩, ⟨some 2, some 1, none, none⟩,
             ⟨some 3, some 1, none, none⟩]) =
      ((insertManyUnordered (fun x => x.SAP_Code) [⟨some 2, some 5, none, none⟩]
          ([⟨some 1, some 1, none, none⟩, ⟨some 2, some 1, none, none⟩,
            ⟨some 3, some 1, none, none⟩].map deriveIncentiveValue)).1,
        if (insertManyUnordered (fun x => x.SAP_Code)
            [⟨some 2, some 5, none, none⟩]
            ([⟨some 1, some 1, none, none⟩, ⟨some 2, some 1, none, none⟩,
              ⟨some 3, some 1, none, none⟩].map deriveIncentiveValue)).2.isEmpty
        then .ok ([⟨some 1, some 1, none, none⟩, ⟨some 2, some 1, none, none⟩,
            ⟨some 3, some 1, none, none⟩].map deriveIncentiveValue)
        else .failedItems (insertManyUnordered (fun x => x.SAP_Code)
          [⟨some 2, some 5, none, none⟩]
          ([⟨some 1, some 1, none, none⟩, ⟨some 2, some 1, none, none⟩,
            ⟨some 3, some 1, none, none⟩].map deriveIncentiveValue)).2)) ∧
    insertManyUnordered (fun x : IncentiveItemT => x.SAP_Code)
      [⟨some 2, some 5, none, none⟩]
      [⟨some 1, some 1, none, none⟩, ⟨some 2, some 1, none, none⟩,
       ⟨some 3, some 1, none, none⟩] =
      ([⟨some 2, some 5, none, none⟩, ⟨some 1, some 1, none, none⟩,
        ⟨some 3, some 1, none, none⟩],
       [⟨1, "E11000 duplicate key error"⟩]) ∧
    createBulkDetailedSales (some ⟨"a1", "Admin"⟩) []
      (some [baseRow, { baseRow with BranchCode := 2 }]) =
      ([baseRow, { baseRow with BranchCode := 2 }],
        .ok [baseRow, { baseRow with BranchCode := 2 }]) := by
  have h := C7_bulk_insert (some ⟨"a1", "Admin"⟩)
    [⟨some 2, some 5, none, none⟩]
    [⟨some 1, some 1, none, none⟩, ⟨some 2, some 1, none, none⟩,
     ⟨some 3, some 1, none, none⟩]
    [] [baseRow, { baseRow with BranchCode := 2 }]
    (by decide) (by decide) (by decide)
  refine ⟨h.1.1, by decide, ?_⟩
  simpa using h.2

/-! ## C10 — schema invariant of accepted DetailedSales documents -/

theorem match_nonneg_getD (o : Option ℚ)
    (h : (match o with | some q => decide (0 ≤ q) | none => false) = true) :
    0 ≤ o.getD 0 := by
  cases o with
  | none => simp at h
  | some q => simpa using h

theorem match_enum_getD (o : Option String)
    (h : (match o with
      | some t => invoiceTypeEnum.contains t
      | none => false) = true) :
    o.getD "Normal" ∈ invoiceTypeEnum := by
  cases o with
  | none => simp at h
  | some t => simpa [List.elem_iff] using h

theorem match_nonneg_getD_update (o : Option ℚ) (x : ℚ)
    (h : (match o with | some q => decide (0 ≤ q) | none => true) = true)
    (hx : 0 ≤ x) : 0 ≤ o.getD x := by
  cases o with
  | none => simpa using hx
  | some q => simpa using h

theorem match_enum_getD_update (o : Option String) (x : String)
    (h : (match o with
      | some t => invoiceTypeEnum.contains t
      | none => true) = true)
    (hx : x ∈ invoiceTypeEnum) : o.getD x ∈ invoiceTypeEnum := by
  cases o with
  | none => simpa using hx
  | some t => simpa [List.elem_iff] using h

/-- A body that passes the schema validators yields a stored document
satisfying the invariant. -/
theorem toStored_invariant (body : SaleInput)
    (h : validateSaleInput (applyDefaults body) = true) :
    saleInvariant (toStored (applyDefaults body)) := by
  unfold validateSaleInput at h
  simp only [Bool.and_eq_true, and_assoc] at h
  obtain ⟨h1, h2, h3, h4, h5, h6, h7, h8, h9, h10, h11, h12, h13, h14,
    h15, h16⟩ := h
  refine ⟨match_enum_getD ((applyDefaults body).InvoiceType) h5,
    match_nonneg_getD _ h10, match_nonneg_getD _ h11,
    match_nonneg_getD _ h13, match_nonneg_getD _ h15,
    match_nonneg_getD ((applyDefaults body).TotalDiscount) h12,
    match_nonneg_getD ((applyDefaults body).TotalVAT) h14,
    match_nonneg_getD ((applyDefaults body).DeliveryFees) h16⟩

/-- C10: every write path preserves the schema invariant — a create
inserts only validated documents, an unordered bulk insert inserts only
its validated items, and an update with `runValidators: true` leaves a
compliant document compliant. -/
theorem C10_schema_invariant :
    (∀ (state : List StoredSale) (body : SaleInput),
      (∀ s ∈ state, saleInvariant s) →
      ∀ s ∈ (createSaleOp state body).1, saleInvariant s) ∧
    (∀ (state : List StoredSale) (bodies : List SaleInput),
      (∀ s ∈ state, saleInvariant s) →
      ∀ s ∈ insertManySalesOp state bodies, saleInvariant s) ∧
    (∀ (ex : StoredSale) (body : SaleInput),
      saleInvariant ex → saleInvariant (updateSaleOp ex body).1) := by
  have hcreate : ∀ (state : List StoredSale) (body : SaleInput),
      (∀ s ∈ state, saleInvariant s) →
      ∀ s ∈ (createSaleOp state body).1, saleInvariant s := by
    intro state body hstate s hs
    by_cases hval : validateSaleInput (applyDefaults body) = true
    · have heq : (createSaleOp state body).1 =
          state ++ [toStored (applyDefaults body)] := by
        simp [createSaleOp, hval]
      rw [heq] at hs
      rcases List.mem_append.mp hs with h | h
      · exact hstate s h
      · obtain rfl := List.mem_singleton.mp h
        exact toStored_invariant body hval
    · have heq : (createSaleOp state body).1 = state := by
        simp [createSaleOp, hval]
      rw [heq] at hs
      exact hstate s hs
  refine ⟨hcreate, ?_, ?_⟩
  · intro state bodies
    induction bodies generalizing state with
    | nil => intro hstate s hs; exact hstate s hs
    | cons b rest ih =>
      intro hstate s hs
      exact ih _ (fun t ht => hcreate state b hstate t ht) s hs
  · intro ex body hex
    by_cases hval : validateSaleUpdate body = true
    · have heq : (updateSaleOp ex body).1 = mergeSale ex body := by
        simp [updateSaleOp, hval]
      rw [heq]
      unfold validateSaleUpdate at hval
      simp only [Bool.and_eq_true, and_assoc] at hval
      obtain ⟨v1, v2, v3, v4, v5, v6, v7, v8⟩ := hval
      obtain ⟨e1, e2, e3, e4, e5, e6, e7, e8⟩ := hex
      exact ⟨match_enum_getD_update _ _ v1 e1,
        match_nonneg_getD_update _ _ v2 e2,
        match_nonneg_getD_update _ _ v3 e3,
        match_nonneg_getD_update _ _ v5 e4,
        match_nonneg_getD_update _ _ v7 e5,
        match_nonneg_getD_update _ _ v4 e6,
        match_nonneg_getD_update _ _ v6 e7,
        match_nonneg_getD_update _ _ v8 e8⟩
    · have heq : (updateSaleOp ex body).1 = ex := by
        simp [updateSaleOp, hval]
      rw [heq]
      exact hex

/-- C10 witness: a fully populated valid body is accepted by the create
path and its stored document satisfies the invariant; updating it with a
validated partial body preserves the invariant. -/
theorem C10_schema_invariant_witness :
    saleInvariant (toStored (applyDefaults
      ⟨some 1, some "1", some ⟨2024, 5, 10⟩, some "10:00", some "Normal",
       some "A", some 1, some "X", some "EA", some 1, some 1, some 0,
       some 1, some 0, some 1, some 0⟩)) ∧
    saleInvariant (updateSaleOp (toStored (applyDefaults
      ⟨some 1, some "1", some ⟨2024, 5, 10⟩, some "10:00", some "Normal",
       some "A", some 1, some "X", some "EA", some 1, some 1, some 0,
       some 1, some 0, some 1, some 0⟩))
      ⟨none, none, none, none, some "Return", none, none, none, none,
       some 2, none, none, none, none, none, none⟩).1 := by
  have hval : validateSaleInput (applyDefaults
      ⟨some 1, some "1", some ⟨2024, 5, 10⟩, some "10:00", some "Normal",
       some "A", some 1, some "X", some "EA", some 1, some 1, some 0,
       some 1, some 0, some 1, some 0⟩) = true := by
    unfold validateSaleInput applyDefaults
    norm_num [invoiceTypeEnum]
  have hinv := toStored_invariant _ hval
  exact ⟨hinv, C10_schema_invariant.2.2 _
    ⟨none, none, none, none, some "Return", none, none, none, none,
     some 2, none, none, none, none, none, none⟩ hinv⟩

end ServerUni
